import Mathlib

/-!
Verification of the templex document-template extraction core.

The TypeScript sources are embedded shallowly: JS strings become `String`,
JS numbers become `ℚ`, absent (`undefined`) fields become `Option`,
thrown exceptions become `Except String`, and the two JS runtime builtins
used by the JSON repair extractor (`JSON.parse` and the regex search for a
fenced code block) become explicit function parameters.
-/

namespace Templex

/-! ### Similarity engine (similarity.ts) -/

/-- JS `String.prototype.toLowerCase`, modelled character-wise. -/
def jsToLower (s : String) : String := ⟨s.data.map Char.toLower⟩

/-- JS `String.prototype.trim`: strip whitespace from both ends. -/
def jsTrim (s : String) : String :=
  ⟨((s.data.dropWhile Char.isWhitespace).reverse.dropWhile Char.isWhitespace).reverse⟩

/-- `levenshteinDistance(str1, str2)`: the TS source fills an (m+1)×(n+1)
matrix `dp` with `dp[i][0] = i`, `dp[0][j] = j` and
`dp[i][j] = dp[i-1][j-1]` when the characters agree, otherwise
`1 + min(deletion, insertion, substitution)`.  This recursion computes the
same recurrence values. -/
def levenshteinDistance : List Char → List Char → Nat
  | [], ys => ys.length
  | x :: xs, [] => (x :: xs).length
  | x :: xs, y :: ys =>
      if x = y then levenshteinDistance xs ys
      else
        min (levenshteinDistance xs (y :: ys) + 1)
          (min (levenshteinDistance (x :: xs) ys + 1)
            (levenshteinDistance xs ys + 1))

/-- `stringSimilarity(str1, str2)` from similarity.ts.  `!str1` is the JS
falsiness test, true exactly for the empty string here. -/
def stringSimilarity (str1 str2 : String) : ℚ :=
  if str1 = str2 then 1
  else if str1 = "" ∨ str2 = "" then 0
  else
    let maxLength := max str1.length str2.length
    if maxLength = 0 then 1
    else
      let distance := levenshteinDistance (jsToLower str1).data (jsToLower str2).data
      1 - (distance : ℚ) / (maxLength : ℚ)

/-- A JS `Set` built from a list: duplicates removed, first occurrence kept,
insertion order preserved. -/
def jsSetList (l : List String) : List String :=
  l.foldl (fun acc x => if x ∈ acc then acc else acc ++ [x]) []

/-- `jaccardSimilarity(set1, set2)` from similarity.ts: Jaccard similarity
of the two sets of lower-cased terms. -/
def jaccardSimilarity (set1 set2 : List String) : ℚ :=
  if set1.length = 0 ∧ set2.length = 0 then 1
  else if set1.length = 0 ∨ set2.length = 0 then 0
  else
    let s1 := jsSetList (set1.map jsToLower)
    let s2 := jsSetList (set2.map jsToLower)
    let inter := s1.filter (fun x => s2.contains x)
    let union := jsSetList (s1 ++ s2)
    (inter.length : ℚ) / (union.length : ℚ)

theorem levenshteinDistance_le_max (xs ys : List Char) :
    levenshteinDistance xs ys ≤ max xs.length ys.length := by
  induction xs generalizing ys with
  | nil => simp [levenshteinDistance]
  | cons x xs ihx =>
    induction ys with
    | nil => simp [levenshteinDistance]
    | cons y ys ihy =>
      have h1 := ihx (y :: ys)
      have h2 := ihx ys
      rw [levenshteinDistance]
      split
      · simp only [List.length_cons]
        omega
      · have hm1 : min (levenshteinDistance xs (y :: ys) + 1)
            (min (levenshteinDistance (x :: xs) ys + 1)
              (levenshteinDistance xs ys + 1)) ≤ levenshteinDistance xs ys + 1 :=
          le_trans (min_le_right _ _) (min_le_right _ _)
        simp only [List.length_cons] at *
        omega

theorem levenshteinDistance_comm (xs ys : List Char) :
    levenshteinDistance xs ys = levenshteinDistance ys xs := by
  induction xs generalizing ys with
  | nil => cases ys <;> simp [levenshteinDistance]
  | cons x xs ihx =>
    induction ys with
    | nil => simp [levenshteinDistance]
    | cons y ys ihy =>
      rw [levenshteinDistance, levenshteinDistance]
      by_cases hxy : x = y
      · subst hxy
        simp [ihx ys]
      · have hyx : ¬ y = x := fun h => hxy h.symm
        simp only [if_neg hxy, if_neg hyx]
        rw [ihx (y :: ys), ihx ys, ihy]
        rw [min_comm (levenshteinDistance (y :: ys) xs + 1)
          (min (levenshteinDistance ys (x :: xs) + 1) (levenshteinDistance ys xs + 1))]
        rw [min_assoc, min_comm (levenshteinDistance ys xs + 1) _, ← min_assoc]

theorem jsToLower_data_length (s : String) : (jsToLower s).data.length = s.length := by
  show (s.data.map Char.toLower).length = s.length
  rw [List.length_map]
  rfl

theorem data_ne_nil_of_ne_empty {a : String} (ha : a ≠ "") : a.data ≠ [] := by
  intro h
  apply ha
  have hmk : a = ⟨[]⟩ := by cases a; simp_all
  rw [hmk]

theorem length_pos_of_ne_empty {a : String} (ha : a ≠ "") : 0 < a.length := by
  have hd : a.data ≠ [] := data_ne_nil_of_ne_empty ha
  have : 0 < a.data.length := List.length_pos.mpr hd
  exact this

theorem stringSimilarity_eq_else (a b : String) (hab : a ≠ b) (ha : a ≠ "") (hb : b ≠ "") :
    stringSimilarity a b =
      1 - (levenshteinDistance (jsToLower a).data (jsToLower b).data : ℚ) /
        ((max a.length b.length : ℕ) : ℚ) := by
  have hor : ¬ (a = "" ∨ b = "") := by simp [ha, hb]
  have hmax : ¬ (max a.length b.length = 0) := by
    have := length_pos_of_ne_empty ha
    omega
  rw [stringSimilarity]
  simp only [if_neg hab, if_neg hor, if_neg hmax]

theorem stringSimilarity_nonneg (a b : String) : 0 ≤ stringSimilarity a b := by
  by_cases hab : a = b
  · rw [stringSimilarity]; simp [hab]
  · by_cases he : a = "" ∨ b = ""
    · rw [stringSimilarity]; simp [hab, he]
    · push_neg at he
      rw [stringSimilarity_eq_else a b hab he.1 he.2]
      have hd : levenshteinDistance (jsToLower a).data (jsToLower b).data ≤
          max a.length b.length := by
        have h := levenshteinDistance_le_max (jsToLower a).data (jsToLower b).data
        rw [jsToLower_data_length, jsToLower_data_length] at h
        exact h
      have hpos : 0 < max a.length b.length := by
        have := length_pos_of_ne_empty he.1
        omega
      have hq : ((levenshteinDistance (jsToLower a).data (jsToLower b).data : ℚ)) /
          ((max a.length b.length : ℕ) : ℚ) ≤ 1 := by
        rw [div_le_one (by exact_mod_cast hpos)]
        exact_mod_cast hd
      linarith

theorem stringSimilarity_le_one (a b : String) : stringSimilarity a b ≤ 1 := by
  by_cases hab : a = b
  · rw [stringSimilarity]; simp [hab]
  · by_cases he : a = "" ∨ b = ""
    · rw [stringSimilarity]; simp [hab, he]
    · push_neg at he
      rw [stringSimilarity_eq_else a b hab he.1 he.2]
      have hq : 0 ≤ ((levenshteinDistance (jsToLower a).data (jsToLower b).data : ℚ)) /
          ((max a.length b.length : ℕ) : ℚ) := by positivity
      linarith

theorem stringSimilarity_comm (a b : String) :
    stringSimilarity a b = stringSimilarity b a := by
  by_cases hab : a = b
  · rw [hab]
  · have hba : ¬ b = a := fun h => hab h.symm
    by_cases he : a = "" ∨ b = ""
    · rw [stringSimilarity, stringSimilarity]
      have he2 : b = "" ∨ a = "" := he.symm
      simp [hab, hba, he, he2]
    · push_neg at he
      rw [stringSimilarity_eq_else a b hab he.1 he.2,
        stringSimilarity_eq_else b a hba he.2 he.1,
        max_comm a.length b.length,
        levenshteinDistance_comm (jsToLower a).data (jsToLower b).data]

/-! ### Data model: `TemplateElement` (types.ts) -/

/-- `TemplateElement` from types.ts: `type` is an arbitrary string (the
validator restricts it to the six-value enum), `level` a JS number,
optional string annotations, an optional keyword array and an optional
recursive child array.  `Option` models an absent (`undefined`) field. -/
inductive TemplateElement where
  | mk (type : String) (level : Option ℚ)
      (content intent persuasion technique transition : Option String)
      (keywords : Option (List String))
      (children : Option (List TemplateElement))

namespace TemplateElement

@[simp] def type : TemplateElement → String
  | mk t _ _ _ _ _ _ _ _ => t

@[simp] def level : TemplateElement → Option ℚ
  | mk _ l _ _ _ _ _ _ _ => l

@[simp] def content : TemplateElement → Option String
  | mk _ _ c _ _ _ _ _ _ => c

@[simp] def intent : TemplateElement → Option String
  | mk _ _ _ i _ _ _ _ _ => i

@[simp] def persuasion : TemplateElement → Option String
  | mk _ _ _ _ p _ _ _ _ => p

@[simp] def technique : TemplateElement → Option String
  | mk _ _ _ _ _ te _ _ _ => te

@[simp] def transition : TemplateElement → Option String
  | mk _ _ _ _ _ _ tr _ _ => tr

@[simp] def keywords : TemplateElement → Option (List String)
  | mk _ _ _ _ _ _ _ k _ => k

@[simp] def children : TemplateElement → Option (List TemplateElement)
  | mk _ _ _ _ _ _ _ _ ch => ch

end TemplateElement

instance : Inhabited TemplateElement :=
  ⟨TemplateElement.mk "" none none none none none none none none⟩

/-- JS truthiness of an optional string field: present and non-empty. -/
def strTruthy : Option String → Bool
  | none => false
  | some s => s ≠ ""

/-- JS truthiness of an optional number field: present and non-zero. -/
def numTruthy : Option ℚ → Bool
  | none => false
  | some q => q ≠ 0

/-- JS `a || b` on two optional string fields. -/
def jsOrStr (a b : Option String) : Option String :=
  if strTruthy a then a else b

/-- `elem.content?.length || 0` from similarity.ts. -/
def contentLen (c : Option String) : ℕ := (c.getD "").length

/-- `elementSimilarity(elem1, elem2)` from similarity.ts. -/
def elementSimilarity (elem1 elem2 : TemplateElement) : ℚ :=
  if elem1.type ≠ elem2.type then 0
  else
    let levelScore : ℚ :=
      if elem1.type = "heading" then
        if elem1.level = elem2.level then 1
        else if numTruthy elem1.level ∧ numTruthy elem2.level ∧
            |elem1.level.getD 0 - elem2.level.getD 0| = 1 then 0.5
        else 0
      else 1
    if ¬ strTruthy elem1.content ∧ ¬ strTruthy elem2.content ∧
        ¬ strTruthy elem1.intent ∧ ¬ strTruthy elem2.intent ∧
        (elem1.keywords.isNone ∨ (elem1.keywords.getD []).length = 0) ∧
        (elem2.keywords.isNone ∨ (elem2.keywords.getD []).length = 0) then
      levelScore
    else
      let contentScore := stringSimilarity (elem1.content.getD "") (elem2.content.getD "")
      let intentScore := stringSimilarity (elem1.intent.getD "") (elem2.intent.getD "")
      let keywordsScore := jaccardSimilarity (elem1.keywords.getD []) (elem2.keywords.getD [])
      levelScore * 0.2 + contentScore * 0.4 + intentScore * 0.2 + keywordsScore * 0.2

/-- The inner loop of `mergeElementLists`: scan the running result list,
keeping the index and similarity of the best match strictly above the
threshold, replacing it only on a strictly greater similarity. -/
def findBestMatchGo (elem2 : TemplateElement) :
    List TemplateElement → ℕ → Option (ℕ × ℚ) → Option (ℕ × ℚ)
  | [], _, best => best
  | m :: rest, i, best =>
      let s := elementSimilarity m elem2
      let best2 :=
        if s > 0.7 then
          match best with
          | none => some (i, s)
          | some b => if s > b.2 then some (i, s) else some b
        else best
      findBestMatchGo elem2 rest (i + 1) best2

/-- The best-match search of `mergeElementLists` (similarityThreshold 0.7). -/
def findBestMatch (merged : List TemplateElement) (elem2 : TemplateElement) :
    Option (ℕ × ℚ) :=
  findBestMatchGo elem2 merged 0 none

mutual

/-- `mergeSimilarElements(elem1, elem2)` from similarity.ts. -/
def mergeSimilarElements : TemplateElement → TemplateElement → TemplateElement
  | e1, TemplateElement.mk t2 l2 c2 i2 p2 te2 tr2 k2 ch2 =>
      let e2 : TemplateElement := TemplateElement.mk t2 l2 c2 i2 p2 te2 tr2 k2 ch2
      TemplateElement.mk
        e1.type
        (if numTruthy e1.level then e1.level else e2.level)
        (if strTruthy e1.content || strTruthy e2.content then
          (if contentLen e1.content ≥ contentLen e2.content then e1.content else e2.content)
        else none)
        (if strTruthy e1.intent || strTruthy e2.intent then
          (if strTruthy e1.intent ∧ strTruthy e2.intent ∧ e1.intent ≠ e2.intent then
            some (e1.intent.getD "" ++ " / " ++ e2.intent.getD "")
          else jsOrStr e1.intent e2.intent)
        else none)
        (if strTruthy e1.persuasion || strTruthy e2.persuasion then
          jsOrStr e1.persuasion e2.persuasion
        else none)
        (if strTruthy e1.technique || strTruthy e2.technique then
          jsOrStr e1.technique e2.technique
        else none)
        (if strTruthy e1.transition || strTruthy e2.transition then
          jsOrStr e1.transition e2.transition
        else none)
        (if e1.keywords.isSome || e2.keywords.isSome then
          some (jsSetList (e1.keywords.getD [] ++ e2.keywords.getD []))
        else none)
        (if e1.children.isSome || ch2.isSome then
          some (mergeElementLists (e1.children.getD []) (ch2.getD []))
        else none)
termination_by e1 e2 => sizeOf e2
decreasing_by
  simp_wf
  cases ch2 <;> simp <;> omega

/-- `mergeElementLists(list1, list2)` from similarity.ts: start from a copy
of `list1` and fold every element of `list2` in, merging it over the best
match above the 0.7 threshold or appending it. -/
def mergeElementLists : List TemplateElement → List TemplateElement → List TemplateElement
  | merged, [] => merged
  | merged, elem2 :: rest =>
      let next :=
        match findBestMatch merged elem2 with
        | some (i, _) => merged.set i (mergeSimilarElements (merged.getD i default) elem2)
        | none => merged ++ [elem2]
      mergeElementLists next rest
termination_by l1 l2 => sizeOf l2
decreasing_by
  all_goals simp_wf <;> omega

end

/-! ### C7: element similarity -/

/-- An element with a type and a level and every other field absent. -/
def bareElement (t : String) (l : Option ℚ) : TemplateElement :=
  TemplateElement.mk t l none none none none none none none

/-- Forget content, intent and keywords, keeping type and level. -/
def stripSubstance (e : TemplateElement) : TemplateElement :=
  bareElement e.type e.level

/-- The "no content, intent, or keywords" test of `elementSimilarity`,
for a single element. -/
def noSubstance (e : TemplateElement) : Prop :=
  ¬ strTruthy e.content ∧ ¬ strTruthy e.intent ∧
    (e.keywords.isNone ∨ (e.keywords.getD []).length = 0)

theorem elementSimilarity_mk (t1 t2 : String) (l1 l2 : Option ℚ)
    (c1 c2 i1 i2 p1 p2 q1 q2 r1 r2 : Option String) (k1 k2 : Option (List String))
    (ch1 ch2 : Option (List TemplateElement)) :
    elementSimilarity (.mk t1 l1 c1 i1 p1 q1 r1 k1 ch1) (.mk t2 l2 c2 i2 p2 q2 r2 k2 ch2) =
      (if t1 ≠ t2 then 0
      else if ¬ strTruthy c1 ∧ ¬ strTruthy c2 ∧ ¬ strTruthy i1 ∧ ¬ strTruthy i2 ∧
          (k1.isNone ∨ (k1.getD []).length = 0) ∧ (k2.isNone ∨ (k2.getD []).length = 0) then
        (if t1 = "heading" then
          if l1 = l2 then 1
          else if numTruthy l1 ∧ numTruthy l2 ∧ |l1.getD 0 - l2.getD 0| = 1 then 0.5
          else 0
        else 1)
      else
        (if t1 = "heading" then
          if l1 = l2 then 1
          else if numTruthy l1 ∧ numTruthy l2 ∧ |l1.getD 0 - l2.getD 0| = 1 then 0.5
          else 0
        else 1) * 0.2 +
        stringSimilarity (c1.getD "") (c2.getD "") * 0.4 +
        stringSimilarity (i1.getD "") (i2.getD "") * 0.2 +
        jaccardSimilarity (k1.getD []) (k2.getD []) * 0.2) := rfl

theorem elementSimilarity_of_type_ne (e1 e2 : TemplateElement)
    (h : e1.type ≠ e2.type) : elementSimilarity e1 e2 = 0 := by
  obtain ⟨t1, l1, c1, i1, p1, q1, r1, k1, ch1⟩ := e1
  obtain ⟨t2, l2, c2, i2, p2, q2, r2, k2, ch2⟩ := e2
  simp only [TemplateElement.type] at h
  rw [elementSimilarity_mk, if_pos h]

theorem elementSimilarity_strip (e1 e2 : TemplateElement) (ht : e1.type = e2.type) :
    elementSimilarity (stripSubstance e1) (stripSubstance e2) =
      (if e1.type = "heading" then
        if e1.level = e2.level then 1
        else if numTruthy e1.level ∧ numTruthy e2.level ∧
            |e1.level.getD 0 - e2.level.getD 0| = 1 then 0.5
        else 0
      else 1) := by
  obtain ⟨t1, l1, c1, i1, p1, q1, r1, k1, ch1⟩ := e1
  obtain ⟨t2, l2, c2, i2, p2, q2, r2, k2, ch2⟩ := e2
  simp only [TemplateElement.type] at ht
  subst ht
  rw [stripSubstance, stripSubstance]
  simp only [TemplateElement.type, TemplateElement.level, bareElement]
  rw [elementSimilarity_mk]
  rw [if_neg (by simp)]
  rw [if_pos (by simp [strTruthy])]

theorem elementSimilarity_of_noSubstance (e1 e2 : TemplateElement)
    (ht : e1.type = e2.type) (h1 : noSubstance e1) (h2 : noSubstance e2) :
    elementSimilarity e1 e2 = elementSimilarity (stripSubstance e1) (stripSubstance e2) := by
  rw [elementSimilarity_strip e1 e2 ht]
  obtain ⟨h1c, h1i, h1k⟩ := h1
  obtain ⟨h2c, h2i, h2k⟩ := h2
  obtain ⟨t1, l1, c1, i1, p1, q1, r1, k1, ch1⟩ := e1
  obtain ⟨t2, l2, c2, i2, p2, q2, r2, k2, ch2⟩ := e2
  simp only [TemplateElement.type] at ht
  subst ht
  simp only [TemplateElement.content, TemplateElement.intent,
    TemplateElement.keywords, TemplateElement.level, TemplateElement.type] at *
  rw [elementSimilarity_mk]
  rw [if_neg (by simp)]
  rw [if_pos ⟨h1c, h2c, h1i, h2i, h1k, h2k⟩]

theorem elementSimilarity_of_substance (e1 e2 : TemplateElement)
    (ht : e1.type = e2.type) (h : ¬ (noSubstance e1 ∧ noSubstance e2)) :
    elementSimilarity e1 e2 =
      elementSimilarity (stripSubstance e1) (stripSubstance e2) * 0.2 +
      stringSimilarity (e1.content.getD "") (e2.content.getD "") * 0.4 +
      stringSimilarity (e1.intent.getD "") (e2.intent.getD "") * 0.2 +
      jaccardSimilarity (e1.keywords.getD []) (e2.keywords.getD []) * 0.2 := by
  rw [elementSimilarity_strip e1 e2 ht]
  rw [noSubstance, noSubstance] at h
  obtain ⟨t1, l1, c1, i1, p1, q1, r1, k1, ch1⟩ := e1
  obtain ⟨t2, l2, c2, i2, p2, q2, r2, k2, ch2⟩ := e2
  simp only [TemplateElement.type] at ht
  subst ht
  simp only [TemplateElement.content, TemplateElement.intent,
    TemplateElement.keywords, TemplateElement.level, TemplateElement.type] at *
  rw [elementSimilarity_mk]
  rw [if_neg (by simp)]
  rw [if_neg (by tauto)]

/-- C7: `elementSimilarity(e1,e2)` is 0 when the two elements' types differ
(in particular a heading and a paragraph score 0); for headings the level
score is 1.0 for equal levels, 0.5 for adjacent levels, 0.0 otherwise, and
non-headings score level as 1.0; when both elements have no content,
intent, or keywords the result equals the level score alone, and otherwise
equals levelScore·0.2 + contentSimilarity·0.4 + intentSimilarity·0.2 +
keywordSimilarity·0.2. -/
theorem C7_elementSimilarity_spec :
    (∀ e1 e2 : TemplateElement, e1.type ≠ e2.type → elementSimilarity e1 e2 = 0) ∧
    elementSimilarity (bareElement "heading" (some 1)) (bareElement "paragraph" none) = 0 ∧
    (∀ l : Option ℚ, elementSimilarity (bareElement "heading" l) (bareElement "heading" l) = 1) ∧
    (∀ la lb : ℚ, 1 ≤ la → 1 ≤ lb → |la - lb| = 1 →
      elementSimilarity (bareElement "heading" (some la)) (bareElement "heading" (some lb)) = 0.5) ∧
    (∀ la lb : ℚ, la ≠ lb → |la - lb| ≠ 1 →
      elementSimilarity (bareElement "heading" (some la)) (bareElement "heading" (some lb)) = 0) ∧
    (∀ t : String, ∀ la lb : Option ℚ, t ≠ "heading" →
      elementSimilarity (bareElement t la) (bareElement t lb) = 1) ∧
    (∀ e1 e2 : TemplateElement, e1.type = e2.type → noSubstance e1 → noSubstance e2 →
      elementSimilarity e1 e2 = elementSimilarity (stripSubstance e1) (stripSubstance e2)) ∧
    (∀ e1 e2 : TemplateElement, e1.type = e2.type → ¬ (noSubstance e1 ∧ noSubstance e2) →
      elementSimilarity e1 e2 =
        elementSimilarity (stripSubstance e1) (stripSubstance e2) * 0.2 +
        stringSimilarity (e1.content.getD "") (e2.content.getD "") * 0.4 +
        stringSimilarity (e1.intent.getD "") (e2.intent.getD "") * 0.2 +
        jaccardSimilarity (e1.keywords.getD []) (e2.keywords.getD []) * 0.2) := by
  refine ⟨elementSimilarity_of_type_ne, ?_, ?_, ?_, ?_, ?_,
    elementSimilarity_of_noSubstance, elementSimilarity_of_substance⟩
  · apply elementSimilarity_of_type_ne
    simp [bareElement]
  · intro l
    simp only [bareElement]
    rw [elementSimilarity_mk]
    rw [if_neg (by simp)]
    rw [if_pos (by simp [strTruthy])]
    simp
  · intro la lb ha hb habs
    have hne : la ≠ lb := by
      intro h
      rw [h] at habs
      simp at habs
    have hla : la ≠ 0 := by intro h; rw [h] at ha; norm_num at ha
    have hlb : lb ≠ 0 := by intro h; rw [h] at hb; norm_num at hb
    simp only [bareElement]
    rw [elementSimilarity_mk]
    rw [if_neg (by simp)]
    rw [if_pos (by simp [strTruthy])]
    rw [if_pos rfl]
    rw [if_neg (by simpa using hne)]
    rw [if_pos ⟨by simp [numTruthy, hla], by simp [numTruthy, hlb], by simpa using habs⟩]
  · intro la lb hne habs
    simp only [bareElement]
    rw [elementSimilarity_mk]
    rw [if_neg (by simp)]
    rw [if_pos (by simp [strTruthy])]
    rw [if_pos rfl]
    rw [if_neg (by simpa using hne)]
    rw [if_neg (fun hc => habs (by simpa using hc.2.2))]
  · intro t la lb ht
    simp only [bareElement]
    rw [elementSimilarity_mk]
    rw [if_neg (by simp)]
    rw [if_pos (by simp [strTruthy])]
    rw [if_neg ht]

/-- Witness for C7: adjacent heading levels 1 and 2 score 0.5. -/
theorem C7_elementSimilarity_spec_witness :
    ((1:ℚ) ≤ 1 ∧ (1:ℚ) ≤ 2 ∧ |(1:ℚ) - 2| = 1) ∧
      elementSimilarity (bareElement "heading" (some 1)) (bareElement "heading" (some 2)) = 0.5 :=
  ⟨⟨le_refl 1, by norm_num, by norm_num⟩,
    C7_elementSimilarity_spec.2.2.2.1 1 2 (le_refl 1) (by norm_num) (by norm_num)⟩

/-! ### C2: list merging with similarity-based deduplication -/

theorem findBestMatchGo_eq_none (e2 : TemplateElement) :
    ∀ (l : List TemplateElement) (i0 : ℕ) (b : Option (ℕ × ℚ)),
      findBestMatchGo e2 l i0 b = none →
      b = none ∧ ∀ k, k < l.length → elementSimilarity (l.getD k default) e2 ≤ 0.7 := by
  intro l
  induction l with
  | nil =>
    intro i0 b h
    simp only [findBestMatchGo] at h
    exact ⟨h, by intro k hk; simp at hk⟩
  | cons m rest ih =>
    intro i0 b h
    simp only [findBestMatchGo] at h
    rcases ih (i0 + 1) _ h with ⟨hb2, hrest⟩
    by_cases h7 : elementSimilarity m e2 > 0.7
    · rw [if_pos h7] at hb2
      cases b with
      | none => simp at hb2
      | some p =>
        replace hb2 : (if elementSimilarity m e2 > p.2 then
            some (i0, elementSimilarity m e2) else some p) = none := hb2
        by_cases hsp : elementSimilarity m e2 > p.2
        · rw [if_pos hsp] at hb2; simp at hb2
        · rw [if_neg hsp] at hb2; simp at hb2
    · rw [if_neg h7] at hb2
      refine ⟨hb2, ?_⟩
      intro k hk
      cases k with
      | zero => simpa using le_of_not_lt h7
      | succ k =>
        have hk2 : k < rest.length := by simpa using hk
        simpa using hrest k hk2

theorem findBestMatchGo_eq_some (e2 : TemplateElement) :
    ∀ (l : List TemplateElement) (i0 : ℕ) (b : Option (ℕ × ℚ)),
      (∀ p, b = some p → 0.7 < p.2) →
      ∀ i s, findBestMatchGo e2 l i0 b = some (i, s) →
        (b = some (i, s) ∧ ∀ k, k < l.length → elementSimilarity (l.getD k default) e2 ≤ s)
        ∨ (∃ k, k < l.length ∧ i = i0 + k ∧ s = elementSimilarity (l.getD k default) e2 ∧
            0.7 < s ∧ (∀ p, b = some p → p.2 < s) ∧
            (∀ j, j < l.length → elementSimilarity (l.getD j default) e2 ≤ s) ∧
            (∀ j, j < k → elementSimilarity (l.getD j default) e2 < s)) := by
  intro l
  induction l with
  | nil =>
    intro i0 b hinv i s h
    simp only [findBestMatchGo] at h
    exact Or.inl ⟨h, by intro k hk; simp at hk⟩
  | cons m rest ih =>
    intro i0 b hinv i s h
    simp only [findBestMatchGo] at h
    by_cases h7 : elementSimilarity m e2 > 0.7
    · rw [if_pos h7] at h
      cases b with
      | none =>
        replace h : findBestMatchGo e2 rest (i0 + 1)
            (some (i0, elementSimilarity m e2)) = some (i, s) := h
        have hinv2 : ∀ p : ℕ × ℚ, some (i0, elementSimilarity m e2) = some p → 0.7 < p.2 := by
          intro p hp
          have hp2 : (i0, elementSimilarity m e2) = p := by simpa using hp
          rw [← hp2]
          exact h7
        rcases ih (i0 + 1) _ hinv2 i s h with ⟨hb2, hall⟩ | ⟨k, hk, hi, hs, h07, hp2, hallR, hfirstR⟩
        · obtain ⟨hieq, hseq⟩ : i0 = i ∧ elementSimilarity m e2 = s := by simpa using hb2
          refine Or.inr ⟨0, by simp, by omega, by simp [hseq], by rw [← hseq]; exact h7,
            by intro p hp; exact absurd hp (by simp), ?_, by intro j hj; omega⟩
          intro j hj
          cases j with
          | zero => simp [hseq]
          | succ j =>
            have hj2 : j < rest.length := by simpa using hj
            simpa using hall j hj2
        · have hs0 : elementSimilarity m e2 < s := hp2 (i0, elementSimilarity m e2) rfl
          refine Or.inr ⟨k + 1, by simp only [List.length_cons]; omega, by omega,
            by simpa using hs, h07, by intro p hp; exact absurd hp (by simp), ?_, ?_⟩
          · intro j hj
            cases j with
            | zero => simpa using le_of_lt hs0
            | succ j =>
              have hj2 : j < rest.length := by simpa using hj
              simpa using hallR j hj2
          · intro j hj
            cases j with
            | zero => simpa using hs0
            | succ j =>
              have hj2 : j < k := by omega
              simpa using hfirstR j hj2
      | some p =>
        replace h : findBestMatchGo e2 rest (i0 + 1)
            (if elementSimilarity m e2 > p.2 then some (i0, elementSimilarity m e2) else some p)
            = some (i, s) := h
        by_cases hsp : elementSimilarity m e2 > p.2
        · rw [if_pos hsp] at h
          have hinv2 : ∀ q : ℕ × ℚ, some (i0, elementSimilarity m e2) = some q → 0.7 < q.2 := by
            intro q hq
            have hq2 : (i0, elementSimilarity m e2) = q := by simpa using hq
            rw [← hq2]
            exact h7
          rcases ih (i0 + 1) _ hinv2 i s h with ⟨hb2, hall⟩ | ⟨k, hk, hi, hs, h07, hp2, hallR, hfirstR⟩
          · obtain ⟨hieq, hseq⟩ : i0 = i ∧ elementSimilarity m e2 = s := by simpa using hb2
            refine Or.inr ⟨0, by simp, by omega, by simp [hseq], by rw [← hseq]; exact h7,
              ?_, ?_, by intro j hj; omega⟩
            · intro q hq
              have hq2 : p = q := by simpa using hq
              rw [← hq2, ← hseq]
              exact hsp
            · intro j hj
              cases j with
              | zero => simp [hseq]
              | succ j =>
                have hj2 : j < rest.length := by simpa using hj
                simpa using hall j hj2
          · have hs0 : elementSimilarity m e2 < s := hp2 (i0, elementSimilarity m e2) rfl
            refine Or.inr ⟨k + 1, by simp only [List.length_cons]; omega, by omega,
              by simpa using hs, h07, ?_, ?_, ?_⟩
            · intro q hq
              have hq2 : p = q := by simpa using hq
              rw [← hq2]
              exact lt_trans hsp hs0
            · intro j hj
              cases j with
              | zero => simpa using le_of_lt hs0
              | succ j =>
                have hj2 : j < rest.length := by simpa using hj
                simpa using hallR j hj2
            · intro j hj
              cases j with
              | zero => simpa using hs0
              | succ j =>
                have hj2 : j < k := by omega
                simpa using hfirstR j hj2
        · rw [if_neg hsp] at h
          have hinv2 : ∀ q : ℕ × ℚ, some p = some q → 0.7 < q.2 := by
            intro q hq
            have hq2 : p = q := by simpa using hq
            rw [← hq2]
            exact hinv p rfl
          rcases ih (i0 + 1) _ hinv2 i s h with ⟨hb2, hall⟩ | ⟨k, hk, hi, hs, h07, hp2, hallR, hfirstR⟩
          · have hps : p = (i, s) := by simpa using hb2
            refine Or.inl ⟨by rw [hps], ?_⟩
            intro j hj
            cases j with
            | zero =>
              have : elementSimilarity m e2 ≤ p.2 := le_of_not_lt hsp
              rw [hps] at this
              simpa using this
            | succ j =>
              have hj2 : j < rest.length := by simpa using hj
              simpa using hall j hj2
          · have hpls : p.2 < s := hp2 p rfl
            have hs0 : elementSimilarity m e2 < s := lt_of_le_of_lt (le_of_not_lt hsp) hpls
            refine Or.inr ⟨k + 1, by simp only [List.length_cons]; omega, by omega,
              by simpa using hs, h07, ?_, ?_, ?_⟩
            · intro q hq
              have hq2 : p = q := by simpa using hq
              rw [← hq2]
              exact hpls
            · intro j hj
              cases j with
              | zero => simpa using le_of_lt hs0
              | succ j =>
                have hj2 : j < rest.length := by simpa using hj
                simpa using hallR j hj2
            · intro j hj
              cases j with
              | zero => simpa using hs0
              | succ j =>
                have hj2 : j < k := by omega
                simpa using hfirstR j hj2
    · rw [if_neg h7] at h
      rcases ih (i0 + 1) b hinv i s h with ⟨hb2, hall⟩ | ⟨k, hk, hi, hs, h07, hp2, hallR, hfirstR⟩
      · have hslt : 0.7 < s := hinv (i, s) hb2
        refine Or.inl ⟨hb2, ?_⟩
        intro j hj
        cases j with
        | zero => simpa using le_of_lt (lt_of_le_of_lt (le_of_not_lt h7) hslt)
        | succ j =>
          have hj2 : j < rest.length := by simpa using hj
          simpa using hall j hj2
      · have hs0 : elementSimilarity m e2 < s := lt_of_le_of_lt (le_of_not_lt h7) h07
        refine Or.inr ⟨k + 1, by simp only [List.length_cons]; omega, by omega,
          by simpa using hs, h07, hp2, ?_, ?_⟩
        · intro j hj
          cases j with
          | zero => simpa using le_of_lt hs0
          | succ j =>
            have hj2 : j < rest.length := by simpa using hj
            simpa using hallR j hj2
        · intro j hj
          cases j with
          | zero => simpa using hs0
          | succ j =>
            have hj2 : j < k := by omega
            simpa using hfirstR j hj2

theorem length_le_mergeElementLists :
    ∀ (l2 l1 : List TemplateElement), l1.length ≤ (mergeElementLists l1 l2).length := by
  intro l2
  induction l2 with
  | nil =>
    intro l1
    simp [mergeElementLists]
  | cons e rest ih =>
    intro l1
    simp only [mergeElementLists]
    cases hfb : findBestMatch l1 e with
    | none =>
      simp only [hfb]
      have h1 : l1.length ≤ (l1 ++ [e]).length := by simp
      exact le_trans h1 (ih (l1 ++ [e]))
    | some p =>
      obtain ⟨i, s⟩ := p
      simp only [hfb]
      have h2 := ih (l1.set i (mergeSimilarElements (l1.getD i default) e))
      rw [List.length_set] at h2
      exact h2

/-- The element of the C2 scenario: a level-1 heading with content 'Intro'. -/
def introHeading : TemplateElement :=
  .mk "heading" (some 1) (some "Intro") none none none none none none

theorem elementSimilarity_introHeading :
    elementSimilarity introHeading introHeading = 1 := by
  have h1 : stringSimilarity "Intro" "Intro" = 1 := by rw [stringSimilarity]; simp
  have h2 : stringSimilarity "" "" = 1 := by rw [stringSimilarity]; simp
  have h3 : jaccardSimilarity [] [] = 1 := by rw [jaccardSimilarity]; simp
  simp only [introHeading]
  rw [elementSimilarity_mk]
  rw [if_neg (by simp)]
  rw [if_neg (by simp [strTruthy])]
  simp only [Option.getD_some, Option.getD_none]
  rw [h1, h2, h3]
  norm_num

theorem findBestMatch_introHeading :
    findBestMatch [introHeading] introHeading = some (0, 1) := by
  rw [findBestMatch]
  simp only [findBestMatchGo, elementSimilarity_introHeading]
  norm_num

theorem mergeSimilarElements_introHeading :
    mergeSimilarElements introHeading introHeading = introHeading := by
  simp only [introHeading]
  simp only [mergeSimilarElements]
  simp [strTruthy, numTruthy, contentLen, jsOrStr]

/-- C2: `mergeElementLists(list1, list2)` folds each element of `list2`
into the running result: the best-match search returns the index of
maximal similarity strictly above the 0.7 threshold (ties broken toward
the first index attaining the maximum, in scan order) or nothing when no
element exceeds the threshold; matches are merged in place (so `list1`'s
slots keep their positions and the result is never shorter than `list1`),
non-matches are appended.  In particular merging the one-element heading
list [heading 1 'Intro'] with an identical list yields exactly that one
heading element again. -/
theorem C2_mergeElementLists_spec :
    (∀ (merged : List TemplateElement) (e2 : TemplateElement) (i : ℕ) (s : ℚ),
      findBestMatch merged e2 = some (i, s) →
        i < merged.length ∧ s = elementSimilarity (merged.getD i default) e2 ∧ 0.7 < s ∧
        (∀ j, j < merged.length → elementSimilarity (merged.getD j default) e2 ≤ s) ∧
        (∀ j, j < i → elementSimilarity (merged.getD j default) e2 < s)) ∧
    (∀ (merged : List TemplateElement) (e2 : TemplateElement),
      findBestMatch merged e2 = none →
      ∀ k, k < merged.length → elementSimilarity (merged.getD k default) e2 ≤ 0.7) ∧
    (∀ l1 l2 : List TemplateElement, l1.length ≤ (mergeElementLists l1 l2).length) ∧
    mergeElementLists [introHeading] [introHeading] = [introHeading] := by
  refine ⟨?_, ?_, fun l1 l2 => length_le_mergeElementLists l2 l1, ?_⟩
  · intro merged e2 i s h
    rw [findBestMatch] at h
    rcases findBestMatchGo_eq_some e2 merged 0 none (by intro p hp; cases hp) i s h with
      ⟨hb2, _⟩ | ⟨k, hk, hi, hs, h07, _, hall, hfirst⟩
    · cases hb2
    · have hik : i = k := by omega
      subst hik
      exact ⟨hk, hs, h07, hall, hfirst⟩
  · intro merged e2 h k hk
    rw [findBestMatch] at h
    exact (findBestMatchGo_eq_none e2 merged 0 none h).2 k hk
  · simp only [mergeElementLists, findBestMatch_introHeading]
    simp [mergeSimilarElements_introHeading]

/-- Witness for C2: the best-match search on the scenario list returns
index 0 with similarity 1, which satisfies the first-maximum property. -/
theorem C2_mergeElementLists_spec_witness :
    findBestMatch [introHeading] introHeading = some (0, 1) ∧
      (0 < ([introHeading] : List TemplateElement).length ∧
        (1 : ℚ) = elementSimilarity (([introHeading] : List TemplateElement).getD 0 default)
          introHeading ∧ (0.7 : ℚ) < 1 ∧
        (∀ j, j < ([introHeading] : List TemplateElement).length →
          elementSimilarity (([introHeading] : List TemplateElement).getD j default)
            introHeading ≤ 1) ∧
        (∀ j, j < 0 → elementSimilarity (([introHeading] : List TemplateElement).getD j default)
          introHeading < 1)) :=
  ⟨findBestMatch_introHeading,
    C2_mergeElementLists_spec.1 [introHeading] introHeading 0 1 findBestMatch_introHeading⟩

/-- C10: for every pair of strings, `stringSimilarity` lies in [0,1] and is
symmetric; the bound rests on the fact that the Levenshtein distance never
exceeds the length of the longer input. -/
theorem C10_stringSimilarity_bounds :
    (∀ a b : String, 0 ≤ stringSimilarity a b ∧ stringSimilarity a b ≤ 1 ∧
      stringSimilarity a b = stringSimilarity b a) ∧
    (∀ xs ys : List Char, levenshteinDistance xs ys ≤ max xs.length ys.length) :=
  ⟨fun a b => ⟨stringSimilarity_nonneg a b, stringSimilarity_le_one a b,
    stringSimilarity_comm a b⟩, levenshteinDistance_le_max⟩

/-! ### Keyword aggregator (keyword-utils.ts) -/

/-- The JS value `Number(x)` of a weight-like field: a rational or NaN. -/
inductive RawWeight where
  | num (q : ℚ)
  | nan
  deriving DecidableEq

/-- A raw keyword as received from model output: either a plain string or
an object carrying term-like fields (`term`/`keyword`/`text`), weight-like
fields (`weight`/`score`) and an optional context (`Option` = the field is
absent). -/
inductive RawKeyword where
  | str (s : String)
  | obj (term keyword text : Option String) (weight score : Option RawWeight)
      (context : Option String)
  deriving DecidableEq

/-- `NormalizedKeyword` from keyword-utils.ts (as produced by
`normalizeKeyword`, which always assigns a context). -/
structure NormalizedKeyword where
  term : String
  weight : ℚ
  context : String
  deriving DecidableEq

/-- `normalizeWeight(weight)` from keyword-utils.ts: NaN defaults to 1.0,
anything else is clamped into [0,1]. -/
def normalizeWeight : RawWeight → ℚ
  | .nan => 1
  | .num q => if q < 0 then 0 else if q > 1 then 1 else q

/-- `keyword.weight ?? keyword.score ?? 1.0` from `normalizeKeyword`. -/
def resolveRawWeight (weight score : Option RawWeight) : RawWeight :=
  match weight with
  | some w => w
  | none =>
    match score with
    | some sc => sc
    | none => .num 1

/-- `keyword.term || keyword.keyword || keyword.text || ''` from
`normalizeKeyword`. -/
def resolveTerm (t k x : Option String) : String :=
  if strTruthy t then t.getD ""
  else if strTruthy k then k.getD ""
  else if strTruthy x then x.getD ""
  else ""

/-- `normalizeKeyword(keyword)` from keyword-utils.ts.  `!keyword` is true
for the empty string; an object is always truthy. -/
def normalizeKeyword : RawKeyword → Option NormalizedKeyword
  | .str s => if s = "" then none else some ⟨jsTrim s, 1, "general"⟩
  | .obj t k x w sc c =>
      if resolveTerm t k x = "" then none
      else some ⟨jsTrim (resolveTerm t k x), normalizeWeight (resolveRawWeight w sc),
        if strTruthy c then c.getD "" else "general"⟩

/-- `normalizeKeywords(keywords)` from keyword-utils.ts. -/
def normalizeKeywords (keywords : List RawKeyword) : List NormalizedKeyword :=
  (keywords.filterMap normalizeKeyword).filter (fun kw => kw.term.length > 0)

/-- One `keywordMap.set`/accumulate step of `mergeKeywordLists`, on an
insertion-ordered association list standing for the JS `Map`. -/
def upsertKeyword (m : List (String × NormalizedKeyword)) (key : String)
    (kw : NormalizedKeyword) : List (String × NormalizedKeyword) :=
  match m with
  | [] => [(key, kw)]
  | (k0, v0) :: rest =>
      if k0 = key then
        (k0, { v0 with weight := min 1 (v0.weight + kw.weight * 0.5) }) :: rest
      else (k0, v0) :: upsertKeyword rest key kw

/-- `mergeKeywordLists(...keywordLists)` from keyword-utils.ts: normalize
every list, accumulate weights per `(lowercased term, context)` key with
`min(1.0, weight + incoming·0.5)`, and sort by weight descending (JS
`sort` is stable). -/
def mergeKeywordLists (keywordLists : List (List RawKeyword)) : List NormalizedKeyword :=
  let entries := keywordLists.foldl (fun m list =>
    (normalizeKeywords list).foldl (fun m kw =>
      upsertKeyword m (jsToLower kw.term ++ ":" ++ kw.context) kw) m) []
  (entries.map Prod.snd).mergeSort (fun a b => b.weight ≤ a.weight)

/-- `keywordListSimilarity(list1, list2)` from keyword-utils.ts. -/
def keywordListSimilarity (list1 list2 : List RawKeyword) : ℚ :=
  let norm1 := normalizeKeywords list1
  let norm2 := normalizeKeywords list2
  if norm1.length = 0 ∨ norm2.length = 0 then 0
  else
    let set1 := jsSetList (norm1.map (fun k => jsToLower k.term))
    let set2 := jsSetList (norm2.map (fun k => jsToLower k.term))
    let inter := set1.filter (fun x => set2.contains x)
    let union := jsSetList (set1 ++ set2)
    (inter.length : ℚ) / (union.length : ℚ)

/-- A document-level keyword (`DocumentTemplate['keywords']` entry). -/
structure DocKeyword where
  term : String
  weight : ℚ
  context : String
  deriving DecidableEq

/-- `toDocumentKeywords(keywords)` from keyword-utils.ts. -/
def toDocumentKeywords (keywords : List NormalizedKeyword) : List DocKeyword :=
  keywords.map (fun kw =>
    ⟨kw.term, kw.weight, if kw.context = "" then "general" else kw.context⟩)

/-! ### C6: merged keyword weights stay in [0,1] -/

theorem normalizeWeight_bounds (w : RawWeight) :
    0 ≤ normalizeWeight w ∧ normalizeWeight w ≤ 1 := by
  cases w with
  | nan => simp [normalizeWeight]
  | num q =>
    simp only [normalizeWeight]
    by_cases h0 : q < 0
    · simp [h0]
    · by_cases h1 : q > 1
      · simp [h0, h1]
      · simp only [if_neg h0, if_neg h1]
        exact ⟨le_of_not_lt h0, le_of_not_lt h1⟩

theorem normalizeKeyword_weight {raw : RawKeyword} {kw : NormalizedKeyword}
    (h : normalizeKeyword raw = some kw) : 0 ≤ kw.weight ∧ kw.weight ≤ 1 := by
  cases raw with
  | str s =>
    simp only [normalizeKeyword] at h
    by_cases hs : s = ""
    · rw [if_pos hs] at h; cases h
    · rw [if_neg hs] at h
      have hkw : (⟨jsTrim s, 1, "general"⟩ : NormalizedKeyword) = kw := by simpa using h
      rw [← hkw]
      norm_num
  | obj t k x w sc c =>
    simp only [normalizeKeyword] at h
    by_cases ht : resolveTerm t k x = ""
    · rw [if_pos ht] at h; cases h
    · rw [if_neg ht] at h
      have hkw : (⟨jsTrim (resolveTerm t k x), normalizeWeight (resolveRawWeight w sc),
          if strTruthy c then c.getD "" else "general"⟩ : NormalizedKeyword) = kw := by
        simpa using h
      rw [← hkw]
      exact normalizeWeight_bounds _

theorem normalizeKeywords_weight (l : List RawKeyword) :
    ∀ kw ∈ normalizeKeywords l, 0 ≤ kw.weight ∧ kw.weight ≤ 1 := by
  intro kw h
  rw [normalizeKeywords] at h
  have h2 := (List.mem_filter.mp h).1
  obtain ⟨raw, _, hnr⟩ := List.mem_filterMap.mp h2
  exact normalizeKeyword_weight hnr

theorem upsertKeyword_weights :
    ∀ (m : List (String × NormalizedKeyword)) (key : String) (kw : NormalizedKeyword),
      (∀ p ∈ m, 0 ≤ p.2.weight ∧ p.2.weight ≤ 1) →
      (0 ≤ kw.weight ∧ kw.weight ≤ 1) →
      ∀ p ∈ upsertKeyword m key kw, 0 ≤ p.2.weight ∧ p.2.weight ≤ 1 := by
  intro m
  induction m with
  | nil =>
    intro key kw _ hkw p hp
    simp only [upsertKeyword, List.mem_singleton] at hp
    rw [hp]
    exact hkw
  | cons e rest ih =>
    obtain ⟨k0, v0⟩ := e
    intro key kw hm hkw p hp
    simp only [upsertKeyword] at hp
    by_cases hk : k0 = key
    · rw [if_pos hk] at hp
      rcases List.mem_cons.mp hp with h | h
      · rw [h]
        have hv0 := hm (k0, v0) (by simp)
        constructor
        · exact le_min (by norm_num) (by nlinarith [hv0.1, hkw.1])
        · exact min_le_left _ _
      · exact hm p (List.mem_cons_of_mem _ h)
    · rw [if_neg hk] at hp
      rcases List.mem_cons.mp hp with h | h
      · rw [h]
        exact hm (k0, v0) (by simp)
      · exact ih key kw (fun q hq => hm q (List.mem_cons_of_mem _ hq)) hkw p h

theorem keywordFold_weights :
    ∀ (kws : List NormalizedKeyword) (m : List (String × NormalizedKeyword)),
      (∀ p ∈ m, 0 ≤ p.2.weight ∧ p.2.weight ≤ 1) →
      (∀ kw ∈ kws, 0 ≤ kw.weight ∧ kw.weight ≤ 1) →
      ∀ p ∈ kws.foldl (fun m kw =>
          upsertKeyword m (jsToLower kw.term ++ ":" ++ kw.context) kw) m,
        0 ≤ p.2.weight ∧ p.2.weight ≤ 1 := by
  intro kws
  induction kws with
  | nil => intro m hm _ p hp; exact hm p (by simpa using hp)
  | cons kw rest ih =>
    intro m hm hkws p hp
    rw [List.foldl_cons] at hp
    exact ih _ (upsertKeyword_weights m _ kw hm (hkws kw (by simp)))
      (fun q hq => hkws q (List.mem_cons_of_mem _ hq)) p hp

theorem listFold_weights :
    ∀ (lists : List (List RawKeyword)) (m : List (String × NormalizedKeyword)),
      (∀ p ∈ m, 0 ≤ p.2.weight ∧ p.2.weight ≤ 1) →
      ∀ p ∈ lists.foldl (fun m list => (normalizeKeywords list).foldl (fun m kw =>
          upsertKeyword m (jsToLower kw.term ++ ":" ++ kw.context) kw) m) m,
        0 ≤ p.2.weight ∧ p.2.weight ≤ 1 := by
  intro lists
  induction lists with
  | nil => intro m hm p hp; exact hm p (by simpa using hp)
  | cons l rest ih =>
    intro m hm p hp
    rw [List.foldl_cons] at hp
    exact ih _ (keywordFold_weights _ m hm (normalizeKeywords_weight l)) p hp

/-- C6: for every collection of keyword lists, whatever the magnitude or
sign of the raw incoming weights, every weight in the output of
`mergeKeywordLists` lies in [0,1], and the output is sorted by weight
descending. -/
theorem C6_mergeKeywordLists_weights :
    (∀ (keywordLists : List (List RawKeyword)) (kw : NormalizedKeyword),
      kw ∈ mergeKeywordLists keywordLists → 0 ≤ kw.weight ∧ kw.weight ≤ 1) ∧
    (∀ keywordLists : List (List RawKeyword),
      (mergeKeywordLists keywordLists).Pairwise (fun a b => b.weight ≤ a.weight)) := by
  constructor
  · intro keywordLists kw hmem
    simp only [mergeKeywordLists] at hmem
    rw [List.mem_mergeSort] at hmem
    obtain ⟨p, hp, hpe⟩ := List.mem_map.mp hmem
    rw [← hpe]
    exact listFold_weights keywordLists [] (by intro q hq; cases hq) p hp
  · intro keywordLists
    simp only [mergeKeywordLists]
    have h := @List.sorted_mergeSort NormalizedKeyword
      (fun a b : NormalizedKeyword => decide (b.weight ≤ a.weight))
      (fun a b c h1 h2 => by
        simp only [decide_eq_true_eq] at h1 h2 ⊢
        exact le_trans h2 h1)
      (fun a b => by
        simp only [Bool.or_eq_true, decide_eq_true_eq]
        exact le_total b.weight a.weight)
      ((List.foldl (fun m list => (normalizeKeywords list).foldl (fun m kw =>
        upsertKeyword m (jsToLower kw.term ++ ":" ++ kw.context) kw) m) [] keywordLists).map
          Prod.snd)
    exact h.imp (fun hab => by simpa using hab)

/-- Witness for C6: a single plain-string keyword list produces the
keyword 'ai' with weight 1, which lies in [0,1]. -/
theorem C6_mergeKeywordLists_weights_witness :
    (⟨"ai", 1, "general"⟩ : NormalizedKeyword) ∈ mergeKeywordLists [[RawKeyword.str "ai"]] ∧
      0 ≤ (1 : ℚ) ∧ (1 : ℚ) ≤ 1 := by
  have htrim : jsTrim "ai" = "ai" := by decide
  have hlen : 0 < ("ai" : String).length := by decide
  have hnorm : normalizeKeywords [RawKeyword.str "ai"] =
      [⟨"ai", 1, "general"⟩] := by
    simp [normalizeKeywords, normalizeKeyword, htrim, hlen]
  have hmem : (⟨"ai", 1, "general"⟩ : NormalizedKeyword) ∈
      mergeKeywordLists [[RawKeyword.str "ai"]] := by
    simp only [mergeKeywordLists]
    rw [List.mem_mergeSort]
    simp [hnorm, upsertKeyword]
  have hb := C6_mergeKeywordLists_weights.1 [[RawKeyword.str "ai"]] ⟨"ai", 1, "general"⟩ hmem
  exact ⟨hmem, hb⟩

/-! ### Schema validator (validation.ts) -/

/-- An untrusted JS field that must end up a string: it can be absent,
a string, or some non-string value carrying its own JS truthiness. -/
inductive JField where
  | missing
  | jstr (s : String)
  | other (truthy : Bool)
  deriving DecidableEq

/-- JS truthiness of a `JField`. -/
def JField.truthy : JField → Bool
  | .missing => false
  | .jstr s => s ≠ ""
  | .other t => t

/-- JS `typeof x === 'string'` for a `JField`. -/
def JField.isStr : JField → Bool
  | .jstr _ => true
  | _ => false

/-- `validateWeight(weight)` from validation.ts. -/
def validateWeight (weight : ℚ) : ℚ :=
  if weight < 0 then 0 else if weight > 1 then 1 else weight

/-- One `components` entry of an `AbstractTemplate` (types.ts). -/
structure ATComponent where
  name : String
  purpose : String
  examples : Option (List String)
  patterns : Option (List String)
  position : Option ℚ
  weight : ℚ
  deriving DecidableEq

/-- `AbstractTemplate` from types.ts, with the fields the validator
inspects modelled as untrusted (`JField` / `Option` for a possibly
non-array value). -/
structure AbstractTemplate where
  name : JField
  formula : JField
  components : Option (List ATComponent)
  flow : Option String
  persuasionTechniques : Option (List String)
  deriving DecidableEq

/-- `validateAbstractTemplate(template)` from validation.ts. -/
def validateAbstractTemplate (template : AbstractTemplate) :
    Except String AbstractTemplate :=
  if template.name.truthy = false ∨ template.name.isStr = false then
    Except.error "AbstractTemplate must have a valid name"
  else if template.formula.truthy = false ∨ template.formula.isStr = false then
    Except.error "AbstractTemplate must have a valid formula"
  else
    let components :=
      match template.components with
      | none => []
      | some comps => comps.map (fun comp =>
          { comp with
            weight := validateWeight comp.weight
            position := some (comp.position.getD 0)
            examples := some (comp.examples.getD [])
            patterns := some (comp.patterns.getD []) })
    let flow :=
      match template.flow with
      | some f => if ["Linear", "Pyramid", "Circular"].contains f then some f
          else some "Linear"
      | none => some "Linear"
    Except.ok
      { template with
        components := some components
        flow := flow
        persuasionTechniques := some (template.persuasionTechniques.getD []) }

/-- The fixed six-value element `type` enum of validation.ts. -/
def validTypes : List String :=
  ["heading", "paragraph", "list", "quote", "code", "section"]

mutual

/-- `validateTemplateElement(element)` from validation.ts: throws on a
`type` outside the enum, silently defaults an absent or out-of-range
heading level to 1, and recursively validates `children`.  (The
`keywords`/`children` non-array coercions concern untyped values and are
vacuous in this typed model.) -/
def validateTemplateElement (e : TemplateElement) : Except String TemplateElement :=
  match e with
  | .mk t l c i p q r k ch =>
      if validTypes.contains t = false then
        Except.error ("Invalid element type: " ++ t)
      else
        let l2 :=
          if t = "heading" then
            match l with
            | none => some 1
            | some lv => if lv < 1 ∨ lv > 6 then some 1 else some lv
          else l
        match ch with
        | none => Except.ok (.mk t l2 c i p q r k none)
        | some cs =>
            match validateElementList cs with
            | Except.error msg => Except.error msg
            | Except.ok cs2 => Except.ok (.mk t l2 c i p q r k (some cs2))
termination_by sizeOf e
decreasing_by all_goals simp_wf <;> omega

/-- `element.children.map(validateTemplateElement)`, with the first thrown
error propagated. -/
def validateElementList : List TemplateElement → Except String (List TemplateElement)
  | [] => Except.ok []
  | e :: rest =>
      match validateTemplateElement e with
      | Except.error msg => Except.error msg
      | Except.ok e2 =>
          match validateElementList rest with
          | Except.error msg => Except.error msg
          | Except.ok rest2 => Except.ok (e2 :: rest2)
termination_by l => sizeOf l
decreasing_by all_goals simp_wf <;> omega

end

mutual

/-- An element tree contains a `type` outside the six-value enum, either
at the root or in some (array-valued) descendant. -/
def hasInvalidType (e : TemplateElement) : Bool :=
  match e with
  | .mk t _ _ _ _ _ _ _ ch =>
      validTypes.contains t = false ||
        (match ch with
         | none => false
         | some cs => anyInvalidType cs)
termination_by sizeOf e
decreasing_by all_goals simp_wf <;> omega

/-- Some element of the list has an invalid type somewhere in its tree. -/
def anyInvalidType : List TemplateElement → Bool
  | [] => false
  | e :: rest => hasInvalidType e || anyInvalidType rest
termination_by l => sizeOf l
decreasing_by all_goals simp_wf <;> omega

end

/-- `Except.isError`, kept local. -/
def isError {ε α : Type} : Except ε α → Bool
  | .error _ => true
  | .ok _ => false

/-! ### C3: when element validation throws -/

theorem validateAux (n : ℕ) :
    (∀ e : TemplateElement, sizeOf e ≤ n →
      isError (validateTemplateElement e) = hasInvalidType e) ∧
    (∀ l : List TemplateElement, sizeOf l ≤ n →
      isError (validateElementList l) = anyInvalidType l) := by
  induction n with
  | zero =>
    constructor
    · intro e he
      obtain ⟨t, l, c, i, p, q, r, k, ch⟩ := e
      simp only [TemplateElement.mk.sizeOf_spec] at he
      omega
    · intro l hl
      cases l with
      | nil =>
        simp only [List.nil.sizeOf_spec] at hl
        omega
      | cons e rest =>
        simp only [List.cons.sizeOf_spec] at hl
        have hpos : 0 < sizeOf e := by
          obtain ⟨t, l2, c, i, p, q, r, k, ch⟩ := e
          simp only [TemplateElement.mk.sizeOf_spec]
          omega
        omega
  | succ n ih =>
    constructor
    · intro e he
      obtain ⟨t, l, c, i, p, q, r, k, ch⟩ := e
      simp only [validateTemplateElement.eq_def, hasInvalidType.eq_def]
      by_cases htv : validTypes.contains t = false
      · rw [if_pos htv]
        have htm : t ∉ validTypes := by simpa using htv
        simp [isError, htm]
      · rw [if_neg htv]
        have htv2 : validTypes.contains t = true := by
          revert htv; cases validTypes.contains t <;> simp
        have htm : t ∈ validTypes := by simpa using htv2
        cases ch with
        | none => simp [isError, htm]
        | some cs =>
          have hcs : sizeOf cs ≤ n := by
            simp only [TemplateElement.mk.sizeOf_spec, Option.some.sizeOf_spec] at he
            omega
          have hlist := (ih).2 cs hcs
          cases hval : validateElementList cs with
          | error msg =>
            rw [hval] at hlist
            simp only [isError] at hlist
            simp [hval, isError, htm, ← hlist]
          | ok cs2 =>
            rw [hval] at hlist
            simp only [isError] at hlist
            simp [hval, isError, htm, ← hlist]
    · intro l hl
      cases l with
      | nil => simp [validateElementList, anyInvalidType, isError]
      | cons e rest =>
        have he : sizeOf e ≤ n := by
          simp only [List.cons.sizeOf_spec] at hl
          omega
        have hrest : sizeOf rest ≤ n := by
          simp only [List.cons.sizeOf_spec] at hl
          omega
        have h1 := (ih).1 e he
        have h2 := (ih).2 rest hrest
        simp only [validateElementList, anyInvalidType]
        cases hve : validateTemplateElement e with
        | error msg =>
          rw [hve] at h1
          simp only [isError] at h1
          simp [isError, ← h1]
        | ok e2 =>
          rw [hve] at h1
          simp only [isError] at h1
          cases hvr : validateElementList rest with
          | error m2 =>
            rw [hvr] at h2
            simp only [isError] at h2
            simp [isError, ← h1, ← h2]
          | ok r2 =>
            rw [hvr] at h2
            simp only [isError] at h2
            simp [isError, ← h1, ← h2]

theorem validateTemplateElement_error_iff (e : TemplateElement) :
    isError (validateTemplateElement e) = hasInvalidType e :=
  (validateAux (sizeOf e)).1 e (le_refl _)

theorem validateElementList_error_iff (l : List TemplateElement) :
    isError (validateElementList l) = anyInvalidType l :=
  (validateAux (sizeOf l)).2 l (le_refl _)

/-- C3 (amended): `validateTemplateElement` throws iff the element's own
type or the type of some descendant reached through `children` arrays lies
outside the fixed six-value enum — in particular an out-of-enum type at
the root always throws; a heading whose level is missing, below 1, or
above 6 (and whose descendants are all valid) silently gets level 1 and
returns without throwing. -/
theorem C3_validateTemplateElement_spec :
    (∀ e : TemplateElement, isError (validateTemplateElement e) = hasInvalidType e) ∧
    (∀ e : TemplateElement, validTypes.contains e.type = false →
      isError (validateTemplateElement e) = true) ∧
    (∀ e : TemplateElement, e.type = "heading" → hasInvalidType e = false →
      (e.level = none ∨ ∃ lv, e.level = some lv ∧ (lv < 1 ∨ 6 < lv)) →
      ∃ e2, validateTemplateElement e = Except.ok e2 ∧ e2.level = some 1) := by
  refine ⟨validateTemplateElement_error_iff, ?_, ?_⟩
  · intro e htv
    rw [validateTemplateElement_error_iff]
    obtain ⟨t, l, c, i, p, q, r, k, ch⟩ := e
    simp only [TemplateElement.type] at htv
    simp only [hasInvalidType.eq_def]
    rw [htv]
    simp
  · intro e ht hvalid hl
    obtain ⟨t, l, c, i, p, q, r, k, ch⟩ := e
    simp only [TemplateElement.type] at ht
    subst ht
    simp only [TemplateElement.level] at hl
    have htv2 : ¬ (validTypes.contains "heading" = false) := by decide
    cases ch with
    | none =>
      simp only [validateTemplateElement.eq_def]
      rw [if_neg htv2]
      refine ⟨_, rfl, ?_⟩
      simp only [TemplateElement.level, if_true]
      rcases hl with h | ⟨lv, hlv, hrange⟩
      · subst h
        rfl
      · subst hlv
        show (if lv < 1 ∨ lv > 6 then some (1:ℚ) else some lv) = some 1
        rw [if_pos hrange]
    | some cs =>
      have hany : anyInvalidType cs = false := by
        simp only [hasInvalidType.eq_def] at hvalid
        revert hvalid
        cases anyInvalidType cs <;> simp
      have herr := validateElementList_error_iff cs
      rw [hany] at herr
      cases hval : validateElementList cs with
      | error msg => rw [hval] at herr; simp [isError] at herr
      | ok cs2 =>
        simp only [validateTemplateElement.eq_def]
        rw [if_neg htv2]
        rw [hval]
        refine ⟨_, rfl, ?_⟩
        simp only [TemplateElement.level, if_true]
        rcases hl with h | ⟨lv, hlv, hrange⟩
        · subst h
          rfl
        · subst hlv
          show (if lv < 1 ∨ lv > 6 then some (1:ℚ) else some lv) = some 1
          rw [if_pos hrange]

/-- The C3 counterexample tree: a valid 'paragraph' element whose child
has the out-of-enum type 'bogus'. -/
def badChildElement : TemplateElement :=
  .mk "bogus" none none none none none none none none

/-- See `badChildElement`. -/
def parentWithBadChild : TemplateElement :=
  .mk "paragraph" none none none none none none none (some [badChildElement])

/-- C3 counterexample: `validateTemplateElement` throws on an element whose
own type 'paragraph' is inside the six-value enum, because a nested child
has an invalid type — refuting "throws only if the element's type is
outside the enum". -/
theorem C3_validateTemplateElement_counterexample :
    validTypes.contains parentWithBadChild.type = true ∧
      isError (validateTemplateElement parentWithBadChild) = true := by
  constructor
  · decide
  · have hbad : validateTemplateElement badChildElement =
        Except.error ("Invalid element type: " ++ "bogus") := by
      simp only [badChildElement, validateTemplateElement.eq_def]
      rw [if_pos (by decide)]
    have hlist : validateElementList [badChildElement] =
        Except.error ("Invalid element type: " ++ "bogus") := by
      simp only [validateElementList, hbad]
    simp only [parentWithBadChild, validateTemplateElement.eq_def]
    rw [if_neg (by decide)]
    simp only [hlist]
    simp [isError]

/-- Witness for C3 (amended): a bare heading without a level validates to
a heading with level 1. -/
theorem C3_validateTemplateElement_spec_witness :
    (bareElement "heading" none).type = "heading" ∧
      hasInvalidType (bareElement "heading" none) = false ∧
      ∃ e2, validateTemplateElement (bareElement "heading" none) = Except.ok e2 ∧
        e2.level = some 1 := by
  have h1 : (bareElement "heading" none).type = "heading" := by simp [bareElement]
  have h2 : hasInvalidType (bareElement "heading" none) = false := by
    simp only [bareElement, hasInvalidType.eq_def]
    decide
  exact ⟨h1, h2, C3_validateTemplateElement_spec.2.2 (bareElement "heading" none) h1 h2
    (Or.inl (by simp [bareElement]))⟩

/-! ### C9: document-template validation -/

/-- The five descriptive metadata keys of a `DocumentTemplate`. -/
structure Metadata where
  genre : Option String
  style : Option String
  purpose : Option String
  audience : Option String
  tone : Option String
  deriving DecidableEq

/-- `Object.keys(metadata).length` for the five-key metadata record. -/
def Metadata.keyCount (m : Metadata) : ℕ :=
  (if m.genre.isSome then 1 else 0) + (if m.style.isSome then 1 else 0) +
    (if m.purpose.isSome then 1 else 0) + (if m.audience.isSome then 1 else 0) +
    (if m.tone.isSome then 1 else 0)

/-- The restricted pattern map (keys `introduction`/`body`/`conclusion`). -/
structure Patterns where
  introduction : Option String
  body : Option String
  conclusion : Option String
  deriving DecidableEq

/-- `Object.keys(patterns).length` for the three-key pattern record. -/
def Patterns.keyCount (p : Patterns) : ℕ :=
  (if p.introduction.isSome then 1 else 0) + (if p.body.isSome then 1 else 0) +
    (if p.conclusion.isSome then 1 else 0)

/-- `DocumentTemplate` from types.ts; `docStructure` embeds the `structure`
field (a Lean keyword). -/
structure DocumentTemplate where
  title : JField
  docStructure : List TemplateElement
  abstractTemplate : Option AbstractTemplate
  metadata : Metadata
  patterns : Patterns
  keywords : List DocKeyword

/-- `template.abstractTemplate` validation step of
`validateDocumentTemplate`: validate it when present. -/
def validateOptionalAbstract : Option AbstractTemplate → Except String (Option AbstractTemplate)
  | none => Except.ok none
  | some atpl =>
      match validateAbstractTemplate atpl with
      | Except.error msg => Except.error msg
      | Except.ok a2 => Except.ok (some a2)

/-- `validateDocumentTemplate(template)` from validation.ts: default the
title, validate the structure tree (which can throw), validate the
abstract template when present (which can throw), keep metadata and
patterns (the non-object coercions are vacuous in this typed model), and
clamp/normalize the keyword entries, dropping the ones whose trimmed term
is empty. -/
def validateDocumentTemplate (template : DocumentTemplate) :
    Except String DocumentTemplate :=
  let title :=
    if template.title.truthy = false ∨ template.title.isStr = false then
      JField.jstr "Untitled Template"
    else template.title
  match validateElementList template.docStructure with
  | Except.error msg => Except.error msg
  | Except.ok structure2 =>
      match validateOptionalAbstract template.abstractTemplate with
      | Except.error msg => Except.error msg
      | Except.ok abs2 =>
          Except.ok
            { title := title
              docStructure := structure2
              abstractTemplate := abs2
              metadata := template.metadata
              patterns := template.patterns
              keywords := (template.keywords.map (fun kw =>
                ⟨kw.term, validateWeight kw.weight,
                  if kw.context = "" then "general" else kw.context⟩)).filter
                (fun kw => jsTrim kw.term ≠ "") }

theorem validateAbstractTemplate_error (atpl : AbstractTemplate)
    (h : atpl.name.isStr = false ∨ atpl.formula.isStr = false) :
    isError (validateAbstractTemplate atpl) = true := by
  rw [validateAbstractTemplate]
  by_cases hn : atpl.name.truthy = false ∨ atpl.name.isStr = false
  · rw [if_pos hn]
    rfl
  · rw [if_neg hn]
    push_neg at hn
    rcases h with h | h
    · exact absurd h hn.2
    · rw [if_pos (Or.inr h)]
      rfl

/-- C9: `validateDocumentTemplate` is not total on templates carrying an
`abstractTemplate`: whenever the abstract template's name or formula is
missing or not a string, validation throws — a raise point at the public
trust boundary beyond the out-of-enum element type. -/
theorem C9_validateDocumentTemplate_raises :
    ∀ (t : DocumentTemplate) (atpl : AbstractTemplate),
      t.abstractTemplate = some atpl →
      (atpl.name = JField.missing ∨ atpl.name.isStr = false ∨
        atpl.formula = JField.missing ∨ atpl.formula.isStr = false) →
      isError (validateDocumentTemplate t) = true := by
  intro t atpl habs h
  have h2 : atpl.name.isStr = false ∨ atpl.formula.isStr = false := by
    rcases h with h | h | h | h
    · exact Or.inl (by rw [h]; rfl)
    · exact Or.inl h
    · exact Or.inr (by rw [h]; rfl)
    · exact Or.inr h
  have herr := validateAbstractTemplate_error atpl h2
  rw [validateDocumentTemplate]
  cases hs : validateElementList t.docStructure with
  | error msg => rfl
  | ok structure2 =>
      rw [habs]
      simp only [validateOptionalAbstract]
      cases hv : validateAbstractTemplate atpl with
      | error msg => rfl
      | ok a2 =>
          rw [hv] at herr
          simp [isError] at herr

/-- A concrete template whose abstract template is missing its name. -/
def templateWithBadAbstract : DocumentTemplate :=
  { title := JField.jstr "T"
    docStructure := []
    abstractTemplate := some
      { name := JField.missing
        formula := JField.jstr "A + B"
        components := none
        flow := none
        persuasionTechniques := none }
    metadata := ⟨none, none, none, none, none⟩
    patterns := ⟨none, none, none⟩
    keywords := [] }

/-- Witness for C9: validating `templateWithBadAbstract` throws. -/
theorem C9_validateDocumentTemplate_raises_witness :
    templateWithBadAbstract.abstractTemplate = some
      { name := JField.missing
        formula := JField.jstr "A + B"
        components := none
        flow := none
        persuasionTechniques := none } ∧
      isError (validateDocumentTemplate templateWithBadAbstract) = true :=
  ⟨rfl, C9_validateDocumentTemplate_raises templateWithBadAbstract _ rfl (Or.inl rfl)⟩

/-! ### Structure merger (structure-merger.ts) -/

/-- The options of `SemanticMergeStrategy`, with their constructor
defaults 3/20/0.3. -/
structure SemanticMergeOptions where
  minChunkSize : ℕ
  maxChunkSize : ℕ
  keywordSimilarityThreshold : ℚ

/-- The default `SemanticMergeStrategy` options (as built by
`MergeStrategyFactory.create('semantic')` with no options). -/
def defaultSemanticMergeOptions : SemanticMergeOptions := ⟨3, 20, 0.3⟩

/-- `isMajorTypeTransition(from, to)` from structure-merger.ts. -/
def isMajorTypeTransition (fromType toType : String) : Bool :=
  let contentTypes := ["paragraph", "list", "quote"]
  let structuralTypes := ["heading", "section", "code"]
  if contentTypes.contains fromType ∧ structuralTypes.contains toType then true
  else if fromType = "code" ∧ toType ≠ "code" then true
  else false

/-- `previous?.type === t` for an optional previous element. -/
def prevTypeIs (previous : Option TemplateElement) (t : String) : Bool :=
  match previous with
  | some p => p.type = t
  | none => false

/-- `isSemanticBoundary(current, previous, currentChunk)` from
structure-merger.ts, with the source's early returns rendered as a nested
conditional.  `current.keywords && previous?.keywords` is a presence test
(a JS array, even empty, is truthy). -/
def isSemanticBoundary (opts : SemanticMergeOptions) (current : TemplateElement)
    (previous : Option TemplateElement) (currentChunk : List TemplateElement) : Bool :=
  if current.type = "code" ∨ prevTypeIs previous "code" = true then
    match previous with
    | none => true
    | some p => current.type ≠ p.type
  else if current.type = "heading" ∧ numTruthy current.level = true ∧
      current.level.getD 0 ≤ 2 ∧ opts.minChunkSize ≤ currentChunk.length then true
  else if current.type = "section" then true
  else if (match previous with
           | some p =>
               if p.type ≠ current.type ∧
                   ((current.type = "heading" ∧ 5 < currentChunk.length) ∨
                     isMajorTypeTransition p.type current.type = true) then true
               else false
           | none => false) = true then true
  else if opts.maxChunkSize ≤ currentChunk.length then true
  else if (match current.keywords, previous with
           | some ck, some p =>
               match p.keywords with
               | some pk =>
                   if keywordListSimilarity (pk.map RawKeyword.str) (ck.map RawKeyword.str) <
                       opts.keywordSimilarityThreshold ∧ 2 < currentChunk.length then true
                   else false
               | none => false
           | _, _ => false) = true then true
  else false

/-- C8 counterexample: with the default options, a level-3 heading right
after a single paragraph — one accumulated element, far below the
claimed "more than 5" — is already a segment boundary, because the
content-to-structural major-type transition rule fires. -/
theorem C8_isSemanticBoundary_counterexample :
    ([bareElement "paragraph" none] : List TemplateElement).length ≤ 5 ∧
      isSemanticBoundary defaultSemanticMergeOptions (bareElement "heading" (some 3))
        (some (bareElement "paragraph" none)) [bareElement "paragraph" none] = true := by
  constructor
  · decide
  · decide

/-- C8 (amended): in semantic segmentation a transition from a content
kind (paragraph/list/quote) to a heading always declares a segment
boundary, regardless of how few elements have accumulated (the
more-than-5-elements branch is subsumed by the content-to-structural
major-type transition rule); independently, any transition into or out of
the code kind declares a boundary. -/
theorem C8_isSemanticBoundary_spec :
    (∀ (current prev : TemplateElement) (chunk : List TemplateElement),
      prev.type ∈ ["paragraph", "list", "quote"] → current.type = "heading" →
      isSemanticBoundary defaultSemanticMergeOptions current (some prev) chunk = true) ∧
    (∀ (current prev : TemplateElement) (chunk : List TemplateElement),
      current.type = "code" → prev.type ≠ "code" →
      isSemanticBoundary defaultSemanticMergeOptions current (some prev) chunk = true) ∧
    (∀ (current prev : TemplateElement) (chunk : List TemplateElement),
      prev.type = "code" → current.type ≠ "code" →
      isSemanticBoundary defaultSemanticMergeOptions current (some prev) chunk = true) := by
  refine ⟨?_, ?_, ?_⟩
  · intro current prev chunk hm hcur
    have hmem3 : prev.type = "paragraph" ∨ prev.type = "list" ∨ prev.type = "quote" := by
      simpa using hm
    have hmajor : isMajorTypeTransition prev.type "heading" = true := by
      rcases hmem3 with h | h | h <;> rw [h] <;> decide
    have hne : prev.type ≠ current.type := by
      rw [hcur]
      rcases hmem3 with h | h | h <;> rw [h] <;> decide
    have hpcode : prev.type ≠ "code" := by
      rcases hmem3 with h | h | h <;> rw [h] <;> decide
    rw [isSemanticBoundary]
    have hfirst : ¬ (current.type = "code" ∨ prevTypeIs (some prev) "code" = true) := by
      rintro (h | h)
      · rw [hcur] at h
        exact absurd h (by decide)
      · simp only [prevTypeIs] at h
        exact hpcode (by simpa using h)
    rw [if_neg hfirst]
    by_cases hH1 : current.type = "heading" ∧ numTruthy current.level = true ∧
        current.level.getD 0 ≤ 2 ∧
        defaultSemanticMergeOptions.minChunkSize ≤ chunk.length
    · rw [if_pos hH1]
    · rw [if_neg hH1]
      have hsec : ¬ (current.type = "section") := by rw [hcur]; decide
      rw [if_neg hsec]
      have hh3 : (match (some prev : Option TemplateElement) with
          | some p =>
              if p.type ≠ current.type ∧
                  ((current.type = "heading" ∧ 5 < chunk.length) ∨
                    isMajorTypeTransition p.type current.type = true) then true
              else false
          | none => false) = true := by
        show (if prev.type ≠ current.type ∧
            ((current.type = "heading" ∧ 5 < chunk.length) ∨
              isMajorTypeTransition prev.type current.type = true) then true
          else false) = true
        rw [if_pos ⟨hne, Or.inr (by rw [hcur]; exact hmajor)⟩]
      rw [if_pos hh3]
  · intro current prev chunk hc hp
    rw [isSemanticBoundary]
    rw [if_pos (Or.inl hc)]
    show decide (¬ current.type = prev.type) = true
    rw [decide_eq_true_eq]
    intro h
    rw [hc] at h
    exact hp h.symm
  · intro current prev chunk hp hc
    rw [isSemanticBoundary]
    have hcond : current.type = "code" ∨ prevTypeIs (some prev) "code" = true := by
      refine Or.inr ?_
      show decide (prev.type = "code") = true
      rw [decide_eq_true_eq]
      exact hp
    rw [if_pos hcond]
    show decide (¬ current.type = prev.type) = true
    rw [decide_eq_true_eq]
    intro h
    rw [hp] at h
    exact hc h

/-- Witness for C8 (amended): a list element directly followed by a code
element is a boundary. -/
theorem C8_isSemanticBoundary_spec_witness :
    (bareElement "code" none).type = "code" ∧
      (bareElement "list" none).type ≠ "code" ∧
      isSemanticBoundary defaultSemanticMergeOptions (bareElement "code" none)
        (some (bareElement "list" none)) [] = true :=
  ⟨rfl, by decide, C8_isSemanticBoundary_spec.2.1 (bareElement "code" none)
    (bareElement "list" none) [] rfl (by decide)⟩

/-! ### JSON repair extractor (json-utils.ts)

`JSON.parse` (wrapped in try/catch) and the fenced-code-block regex search
are JS runtime builtins; they are modelled as explicit function
parameters `parse` (`none` = the parse threw) and `fence` (the first
capture group of ```` /```(?:json)?\s*\n?([\s\S]*?)\n?```/ ````, `none` =
no match). -/

/-- The scanning loop of `extractBalancedJSON`: walk the text from the
first opening bracket, tracking nesting depth, string state and backslash
escapes; return the consumed prefix when the depth returns to zero. -/
def balancedScan (startChar endChar : Char) :
    List Char → ℕ → Bool → Bool → List Char → Option (List Char)
  | [], _, _, _, _ => none
  | ch :: rest, depth, inString, escaped, acc =>
      let acc2 := acc ++ [ch]
      if escaped then balancedScan startChar endChar rest depth inString false acc2
      else if ch = '\\' then balancedScan startChar endChar rest depth inString true acc2
      else if ch = '"' then balancedScan startChar endChar rest depth (!inString) escaped acc2
      else if inString = false then
        if ch = startChar then
          balancedScan startChar endChar rest (depth + 1) inString escaped acc2
        else if ch = endChar then
          if depth = 1 then some acc2
          else balancedScan startChar endChar rest (depth - 1) inString escaped acc2
        else balancedScan startChar endChar rest depth inString escaped acc2
      else balancedScan startChar endChar rest depth inString escaped acc2

/-- `extractBalancedJSON(text)` from json-utils.ts: find the first `{` or
`[` (the earlier of the two) and scan for its balanced closer, skipping
quoted strings and honoring backslash escapes. -/
def extractBalancedJSON (text : String) : Option String :=
  let idxBrace := text.data.findIdx? (· = '{')
  let idxBracket := text.data.findIdx? (· = '[')
  let firstStart : Option (ℕ × Char) :=
    match idxBrace, idxBracket with
    | none, none => none
    | some i, none => some (i, '{')
    | none, some j => some (j, '[')
    | some i, some j => if j < i then some (j, '[') else some (i, '{')
  match firstStart with
  | none => none
  | some (start, startChar) =>
      let endChar := if startChar = '{' then '}' else ']'
      (balancedScan startChar endChar (text.data.drop start) 0 false false []).map
        (fun l => (⟨l⟩ : String))

/-- `.replace(/\/\/.*$/gm, '')`: drop everything from `//` to the end of
its line. -/
def stripLineComments : List Char → List Char
  | [] => []
  | '/' :: '/' :: rest => stripLineComments (rest.dropWhile (· ≠ '\n'))
  | c :: rest => c :: stripLineComments rest
termination_by l => l.length
decreasing_by
  all_goals simp_wf
  all_goals try omega
  all_goals exact Nat.lt_of_le_of_lt ((List.dropWhile_sublist _).length_le) (by omega)

/-- Is a closing `*/` present anywhere ahead? -/
def hasCommentClose : List Char → Bool
  | [] => false
  | '*' :: '/' :: _ => true
  | _ :: rest => hasCommentClose rest

/-- `.replace(/\/\*[\s\S]*?\*\//g, '')`: drop lazily matched block
comments; an unterminated `/*` (no closing `*/` ahead) stays, as the
regex then has no match. -/
def stripBlockCommentsGo : List Char → Bool → List Char
  | [], _ => []
  | '*' :: '/' :: rest, true => stripBlockCommentsGo rest false
  | _ :: rest, true => stripBlockCommentsGo rest true
  | '/' :: '*' :: rest, false =>
      if hasCommentClose rest then stripBlockCommentsGo rest true
      else '/' :: '*' :: rest
  | c :: rest, false => c :: stripBlockCommentsGo rest false

/-- `.replace(/,\s*([}\]])/g, '$1')`: drop a comma (and the whitespace
after it) that directly precedes a closing bracket. -/
def stripTrailingCommas : List Char → List Char
  | [] => []
  | ',' :: rest =>
      (match h : rest.dropWhile (fun c => c.isWhitespace) with
       | ch :: rest3 =>
           if ch = '}' ∨ ch = ']' then ch :: stripTrailingCommas rest3
           else ',' :: stripTrailingCommas rest
       | [] => ',' :: rest)
  | c :: rest => c :: stripTrailingCommas rest
termination_by l => l.length
decreasing_by
  all_goals simp_wf
  all_goals try omega
  all_goals
    (have hsub : List.Sublist (List.dropWhile (fun c => c.isWhitespace) rest) rest :=
      List.dropWhile_sublist _
     rw [h] at hsub
     have h2 := hsub.length_le
     simp only [List.length_cons] at h2
     omega)

/-- `[a-zA-Z_]`. -/
def isIdentStart (c : Char) : Bool := c.isAlpha || c = '_'

/-- `[a-zA-Z0-9_]`. -/
def isIdentChar (c : Char) : Bool := c.isAlpha || c.isDigit || c = '_'

/-- `.replace(/([{,]\s*)([a-zA-Z_][a-zA-Z0-9_]*)\s*:/g, '$1"$2":')`: after
a `{` or `,` (keeping its trailing whitespace), wrap a simple identifier
key in quotes, dropping the whitespace between key and colon. -/
def quoteKeys : List Char → List Char
  | [] => []
  | c :: rest =>
      if c = '{' ∨ c = ',' then
        (match h : rest.dropWhile (fun ch => ch.isWhitespace) with
         | i0 :: irest =>
             if isIdentStart i0 then
               (match h2 : (irest.dropWhile isIdentChar).dropWhile
                   (fun ch => ch.isWhitespace) with
                | ':' :: r4 =>
                    c :: (rest.takeWhile (fun ch => ch.isWhitespace) ++
                      '"' :: (i0 :: irest.takeWhile isIdentChar) ++
                      '"' :: ':' :: quoteKeys r4)
                | _ :: _ => c :: quoteKeys rest
                | [] => c :: quoteKeys rest)
             else c :: quoteKeys rest
         | [] => c :: quoteKeys rest)
      else c :: quoteKeys rest
termination_by l => l.length
decreasing_by
  all_goals simp_wf
  all_goals try omega
  all_goals
    (have hsub1 : List.Sublist (List.dropWhile (fun ch => ch.isWhitespace) rest) rest :=
      List.dropWhile_sublist _
     rw [h] at hsub1
     have ha := hsub1.length_le
     have hb : (List.dropWhile isIdentChar irest).length ≤ irest.length :=
      (List.dropWhile_sublist _).length_le
     have hsub3 : List.Sublist
        (List.dropWhile (fun ch => ch.isWhitespace) (List.dropWhile isIdentChar irest))
        (List.dropWhile isIdentChar irest) := List.dropWhile_sublist _
     rw [h2] at hsub3
     have hc := hsub3.length_le
     simp only [List.length_cons] at ha hc
     omega)

/-- `.replace with the BOM-anchored regex`: strip a leading byte-order mark. -/
def stripBOM : List Char → List Char
  | [] => []
  | c :: rest => if c = '\uFEFF' then rest else c :: rest

/-- `.replace(/\s+/g, ' ')`: collapse whitespace runs into one space. -/
def collapseWs : List Char → List Char
  | [] => []
  | c :: rest =>
      if c.isWhitespace then
        ' ' :: collapseWs (rest.dropWhile (fun ch => ch.isWhitespace))
      else c :: collapseWs rest
termination_by l => l.length
decreasing_by
  all_goals simp_wf
  all_goals try omega
  all_goals exact Nat.lt_of_le_of_lt ((List.dropWhile_sublist _).length_le) (by omega)

/-- `cleanJSONString(text)` from json-utils.ts: strip comments, remove
trailing commas, quote simple unquoted keys, strip the BOM and zero-width
spaces, collapse whitespace, and trim. -/
def cleanJSONString (text : String) : String :=
  let s1 := stripLineComments text.data
  let s2 := stripBlockCommentsGo s1 false
  let s3 := stripTrailingCommas s2
  let s4 := quoteKeys s3
  let s5 := stripBOM s4
  let s6 := s5.filter (fun c => c ≠ '\u200B')
  let s7 := collapseWs s6
  jsTrim ⟨s7⟩

/-- `extractJSON(text)` from json-utils.ts: the four-strategy cascade.
`!text` guards the empty string; each `try { return JSON.parse(…) }
catch {}` is one `parse` application, falling through on `none`. -/
def extractJSON {α : Type} (parse : String → Option α)
    (fence : String → Option String) (text : String) : Option α :=
  if text = "" then none
  else
    match parse text with
    | some v => some v
    | none =>
        match (match fence text with
               | some block => parse block
               | none => none) with
        | some v => some v
        | none =>
            match (match extractBalancedJSON text with
                   | some s => parse s
                   | none => none) with
            | some v => some v
            | none => parse (cleanJSONString text)

/-- C1: `extractJSON` never throws — for every input it returns a value
or `none` — and it is exactly the four-strategy cascade with
short-circuit at the first success: direct parse, parse of the fenced
block, parse of the balanced-bracket substring, parse after textual
cleanup (the empty string is rejected up front, before any strategy). -/
theorem C1_extractJSON_cascade {α : Type} :
    ∀ (parse : String → Option α) (fence : String → Option String) (text : String),
      (extractJSON parse fence text =
        if text = "" then none
        else ((parse text).orElse (fun _ =>
          ((fence text).bind parse).orElse (fun _ =>
            ((extractBalancedJSON text).bind parse).orElse (fun _ =>
              parse (cleanJSONString text)))))) ∧
      (extractJSON parse fence text = none ∨
        ∃ v, extractJSON parse fence text = some v) := by
  intro parse fence text
  constructor
  · rw [extractJSON]
    by_cases ht : text = ""
    · rw [if_pos ht, if_pos ht]
    · rw [if_neg ht, if_neg ht]
      cases hp : parse text with
      | some v => simp
      | none =>
          cases hf : fence text with
          | some block =>
              cases hpb : parse block with
              | some v => simp [hpb]
              | none =>
                  cases hb : extractBalancedJSON text with
                  | some s => cases hps : parse s <;> simp [hpb, hps]
                  | none => simp [hpb]
          | none =>
              cases hb : extractBalancedJSON text with
              | some s => cases hps : parse s <;> simp [hps]
              | none => simp
  · cases h : extractJSON parse fence text with
    | none => exact Or.inl rfl
    | some v => exact Or.inr ⟨v, rfl⟩

/-! ### Template extractor core (part of index/extractor source, C4 and C5) -/

/-- `ChunkAnalysis` from types.ts (the fields the refinement loop reads). -/
structure ChunkAnalysis where
  elements : List TemplateElement
  keywords : List RawKeyword
  patterns : Patterns
  confidence : ℚ
  abstractTemplate : Option AbstractTemplate

/-- The validated `Required<ExtractionConfig>` fields that the refinement
path reads. -/
structure ExtractionConfig where
  maxDepth : ℕ
  minConfidence : ℚ
  useIterativeRefinement : Bool

/-- `initializeTemplate()` from the extractor. -/
def initializeTemplate : DocumentTemplate :=
  { title := JField.jstr "Extracted Template"
    docStructure := []
    abstractTemplate := none
    metadata := ⟨none, none, none, none, none⟩
    patterns := ⟨none, none, none⟩
    keywords := [] }

/-- `extractMetadata(analyses)` from the extractor: a fixed heuristic
assignment. -/
def extractMetadata (analyses : List ChunkAnalysis) : Metadata :=
  ⟨some "article", some "informative", some "explain", some "general", some "neutral"⟩

/-- `mergeKeywords(analyses)` from the extractor: merge all keyword lists,
keep the top 50, and convert to document keywords. -/
def extractorMergeKeywords (analyses : List ChunkAnalysis) : List DocKeyword :=
  toDocumentKeywords ((mergeKeywordLists (analyses.map (·.keywords))).take 50)

/-- `extractAbstractTemplate(analyses)` from the extractor:
`lastAbstractTemplate` (instance state, passed explicitly here) wins,
otherwise the first analysis carrying one. -/
def extractAbstractTemplate (last : Option AbstractTemplate)
    (analyses : List ChunkAnalysis) : Option AbstractTemplate :=
  match last with
  | some a => some a
  | none => analyses.findSome? (·.abstractTemplate)

/-- `refineTemplateStep(template, analyses)` from the extractor:
`analyses[0] || {}` supplies structure and patterns, keywords are merged
when any analysis exists, metadata is the fixed heuristic assignment. -/
def refineTemplateStep (template : DocumentTemplate) (analyses : List ChunkAnalysis)
    (last : Option AbstractTemplate) : DocumentTemplate :=
  let primaryElements := match analyses.head? with
    | some a => a.elements
    | none => []
  let primaryPatterns := match analyses.head? with
    | some a => a.patterns
    | none => ⟨none, none, none⟩
  { title := if template.title.truthy then template.title else JField.jstr "Document Analysis"
    docStructure := primaryElements
    abstractTemplate := extractAbstractTemplate last analyses
    keywords := if 0 < analyses.length then extractorMergeKeywords analyses else []
    patterns := primaryPatterns
    metadata := extractMetadata analyses }

/-- `evaluateTemplate(template, analyses)` from the extractor: four
0.3/0.3/0.2/0.2 indicators accumulated into both the score and the
normalization factor, then blended 60/40 with the mean analysis
confidence when analyses are present. -/
def evaluateTemplate (template : DocumentTemplate) (analyses : List ChunkAnalysis) : ℚ :=
  let p1 : ℚ × ℚ := if 0 < template.docStructure.length then (0.3, 0.3) else (0, 0)
  let p2 : ℚ × ℚ := if 0 < template.keywords.length then (p1.1 + 0.3, p1.2 + 0.3) else p1
  let p3 : ℚ × ℚ := if 0 < template.patterns.keyCount then (p2.1 + 0.2, p2.2 + 0.2) else p2
  let p4 : ℚ × ℚ := if 0 < template.metadata.keyCount then (p3.1 + 0.2, p3.2 + 0.2) else p3
  let normalizedHeuristic := if 0 < p4.2 then p4.1 / p4.2 else 0
  if 0 < analyses.length then
    let avgConfidence := (analyses.map (·.confidence)).sum / (analyses.length : ℚ)
    normalizedHeuristic * 0.6 + avgConfidence * 0.4
  else normalizedHeuristic

/-- Modelled from the spec: the `createIterator`/`run` cycle of the
external `@aid-on/iteratop` dependency, which is not part of this
repository's sources.  §4.5 of the spec gives its states — Init →
Act → Evaluate → Transition → (repeat or) Finalize — repeating while the
evaluation's shouldContinue holds.  The runner takes fuel and also
reports the number of Act passes executed. -/
structure IteratorCallbacks (I S A R : Type) where
  init : I → S
  act : S → A
  evaluate : S → A → ℚ × Bool
  transition : S → A → S
  finalize : S → R

/-- Modelled from the spec: see `IteratorCallbacks`. -/
def runIterator {I S A R : Type} (cb : IteratorCallbacks I S A R) :
    ℕ → S → R × ℕ
  | 0, s => (cb.finalize s, 0)
  | fuel + 1, s =>
      let a := cb.act s
      let e := cb.evaluate s a
      let s2 := cb.transition s a
      if e.2 then
        let r := runIterator cb fuel s2
        (r.1, r.2 + 1)
      else (cb.finalize s2, 1)

/-- Modelled from the spec: see `IteratorCallbacks`. -/
def iteratorRun {I S A R : Type} (cb : IteratorCallbacks I S A R) (fuel : ℕ)
    (input : I) : R × ℕ :=
  runIterator cb fuel (cb.init input)

/-- The iterator state of `refineTemplateWithIterator`. -/
structure RefineState where
  analyses : List ChunkAnalysis
  template : DocumentTemplate
  iteration : ℕ

/-- `refineTemplateWithIterator(analyses)` from the extractor: the
callbacks wired into the external iterator.  `evaluate` continues while
`score < minConfidence && iteration < 3`; `transition` unconditionally
replaces the template and increments the iteration counter. -/
def refineTemplateWithIterator (cfg : ExtractionConfig) (last : Option AbstractTemplate)
    (analyses : List ChunkAnalysis) (fuel : ℕ) : DocumentTemplate × ℕ :=
  iteratorRun
    ({ init := fun input => ⟨input, initializeTemplate, 0⟩
       act := fun s => refineTemplateStep s.template s.analyses last
       evaluate := fun s a =>
         let score := evaluateTemplate a s.analyses
         (score, decide (score < cfg.minConfidence) && decide (s.iteration < 3))
       transition := fun s a => ⟨s.analyses, a, s.iteration + 1⟩
       finalize := fun s => s.template } :
      IteratorCallbacks (List ChunkAnalysis) RefineState DocumentTemplate DocumentTemplate)
    fuel analyses

/-- `refineTemplate(analyses, options)` from the extractor: empty analyses
return the initial template; the iterative path is taken when
`(maxDepth && maxDepth > 1) || useIterativeRefinement === true` and more
than one analysis exists; otherwise the single fast-path merge runs. -/
def refineTemplate (cfg : ExtractionConfig) (last : Option AbstractTemplate)
    (analyses : List ChunkAnalysis) (fuel : ℕ) : DocumentTemplate :=
  if analyses.length = 0 then initializeTemplate
  else
    let shouldUseIterative := decide (1 < cfg.maxDepth) || cfg.useIterativeRefinement
    if shouldUseIterative = true ∧ 1 < analyses.length then
      (refineTemplateWithIterator cfg last analyses fuel).1
    else refineTemplateStep initializeTemplate analyses last

/-! ### C4: the bounded refinement loop -/

theorem refineTemplateStep_idem (t : DocumentTemplate) (analyses : List ChunkAnalysis)
    (last : Option AbstractTemplate) :
    refineTemplateStep (refineTemplateStep t analyses last) analyses last =
      refineTemplateStep t analyses last := by
  have hda : (JField.jstr "Document Analysis").truthy = true := by decide
  by_cases h : t.title.truthy = true
  · simp [refineTemplateStep, h]
  · simp [refineTemplateStep, h, hda]

/-- C4 (spec-modelled iterator): the refinement loop continues while
`score < minConfidence && iteration < 3`, incrementing the iteration
counter and unconditionally replacing the running template on every
transition; when the score threshold is never met (every candidate
scores below `minConfidence`), exactly 4 Act passes (iterations 0,1,2,3)
execute before the loop stops. -/
theorem C4_refinement_loop_passes :
    ∀ (cfg : ExtractionConfig) (last : Option AbstractTemplate)
      (analyses : List ChunkAnalysis) (fuel : ℕ),
      4 ≤ fuel →
      evaluateTemplate (refineTemplateStep initializeTemplate analyses last) analyses <
        cfg.minConfidence →
      (refineTemplateWithIterator cfg last analyses fuel).2 = 4 := by
  intro cfg last analyses fuel hfuel hscore
  obtain ⟨m, rfl⟩ : ∃ m, fuel = m + 4 := ⟨fuel - 4, by omega⟩
  have hd : decide (evaluateTemplate (refineTemplateStep initializeTemplate analyses last)
      analyses < cfg.minConfidence) = true := decide_eq_true hscore
  have hi : refineTemplateStep (refineTemplateStep initializeTemplate analyses last)
      analyses last = refineTemplateStep initializeTemplate analyses last :=
    refineTemplateStep_idem _ _ _
  rw [refineTemplateWithIterator, iteratorRun]
  rw [show m + 4 = m + 3 + 1 from rfl, runIterator]
  simp only [hi, hd]
  rw [show m + 3 = m + 2 + 1 from rfl, runIterator]
  simp only [hi, hd]
  rw [show m + 2 = m + 1 + 1 from rfl, runIterator]
  simp only [hi, hd]
  rw [show m + 1 = m + 0 + 1 from rfl, runIterator]
  simp only [hi, hd]
  norm_num

/-- The sample analysis of the C4 witness: empty fields, confidence 0.5. -/
def halfConfidenceAnalysis : ChunkAnalysis :=
  ⟨[], [], ⟨none, none, none⟩, 1/2, none⟩

theorem halfConfidence_score :
    evaluateTemplate
      (refineTemplateStep initializeTemplate
        [halfConfidenceAnalysis, halfConfidenceAnalysis] none)
      [halfConfidenceAnalysis, halfConfidenceAnalysis] < 1 := by
  have hkw : extractorMergeKeywords [halfConfidenceAnalysis, halfConfidenceAnalysis] = [] := by
    simp [extractorMergeKeywords, mergeKeywordLists, normalizeKeywords,
      halfConfidenceAnalysis, toDocumentKeywords]
  rw [refineTemplateStep]
  simp only [hkw]
  rw [evaluateTemplate]
  norm_num [halfConfidenceAnalysis, extractMetadata, Metadata.keyCount, Patterns.keyCount,
    extractAbstractTemplate, initializeTemplate, JField.truthy]

/-- Witness for C4: two half-confidence analyses against an unreachable
minimum confidence of 1 give exactly 4 passes. -/
theorem C4_refinement_loop_passes_witness :
    (4 ≤ 10 ∧
      evaluateTemplate
        (refineTemplateStep initializeTemplate
          [halfConfidenceAnalysis, halfConfidenceAnalysis] none)
        [halfConfidenceAnalysis, halfConfidenceAnalysis] <
        (ExtractionConfig.mk 3 1 false).minConfidence) ∧
      (refineTemplateWithIterator (ExtractionConfig.mk 3 1 false) none
        [halfConfidenceAnalysis, halfConfidenceAnalysis] 10).2 = 4 :=
  ⟨⟨by norm_num, halfConfidence_score⟩,
    C4_refinement_loop_passes (ExtractionConfig.mk 3 1 false) none
      [halfConfidenceAnalysis, halfConfidenceAnalysis] 10 (by norm_num) halfConfidence_score⟩

/-! ### C5: when the iterative cycle is entered -/

/-- C5 (amended): the iterative refinement cycle is entered exactly when
more than one chunk analysis exists and (maxDepth exceeds 1 or iterative
refinement is explicitly requested); with exactly one analysis — even
when iterative refinement is requested — the single fast-path merge runs;
with more than one analysis but neither iterative condition, the
fast-path merge runs; with zero analyses the empty initial template is
returned directly, without a merge pass. -/
theorem C5_refineTemplate_paths :
    (∀ (cfg : ExtractionConfig) (last : Option AbstractTemplate)
        (analyses : List ChunkAnalysis) (fuel : ℕ),
      1 < analyses.length → (1 < cfg.maxDepth ∨ cfg.useIterativeRefinement = true) →
      refineTemplate cfg last analyses fuel =
        (refineTemplateWithIterator cfg last analyses fuel).1) ∧
    (∀ (cfg : ExtractionConfig) (last : Option AbstractTemplate)
        (analyses : List ChunkAnalysis) (fuel : ℕ),
      analyses.length = 1 →
      refineTemplate cfg last analyses fuel =
        refineTemplateStep initializeTemplate analyses last) ∧
    (∀ (cfg : ExtractionConfig) (last : Option AbstractTemplate)
        (analyses : List ChunkAnalysis) (fuel : ℕ),
      1 < analyses.length →
      ¬ (1 < cfg.maxDepth ∨ cfg.useIterativeRefinement = true) →
      refineTemplate cfg last analyses fuel =
        refineTemplateStep initializeTemplate analyses last) ∧
    (∀ (cfg : ExtractionConfig) (last : Option AbstractTemplate) (fuel : ℕ),
      refineTemplate cfg last [] fuel = initializeTemplate) := by
  refine ⟨?_, ?_, ?_, ?_⟩
  · intro cfg last analyses fuel hlen hcond
    rw [refineTemplate]
    rw [if_neg (by omega)]
    rw [if_pos ?_]
    refine ⟨?_, hlen⟩
    rcases hcond with h | h
    · simp [h]
    · simp [h]
  · intro cfg last analyses fuel hlen
    rw [refineTemplate]
    rw [if_neg (by omega)]
    rw [if_neg (fun hpos => by omega)]
  · intro cfg last analyses fuel hlen hcond
    rw [refineTemplate]
    rw [if_neg (by omega)]
    rw [if_neg ?_]
    rintro ⟨hb, _⟩
    push_neg at hcond
    rcases Bool.or_eq_true_iff.mp hb with h | h
    · exact absurd (of_decide_eq_true h) (not_lt.mpr hcond.1)
    · exact absurd h (by simpa using hcond.2)
  · intro cfg last fuel
    rw [refineTemplate]
    simp

/-- C5 counterexample: with zero analyses — a case of "analyses.length <=
1" — and iterative refinement explicitly requested, `refineTemplate`
does not perform the single direct merge pass: it returns the empty
initial template, which differs from the fast-path merge result (whose
metadata is populated by the fixed heuristic assignment). -/
theorem C5_refineTemplate_counterexample :
    refineTemplate ⟨3, 7/10, true⟩ none [] 10 = initializeTemplate ∧
      refineTemplate ⟨3, 7/10, true⟩ none [] 10 ≠
        refineTemplateStep initializeTemplate [] none := by
  have h1 : refineTemplate ⟨3, 7/10, true⟩ none [] 10 = initializeTemplate := by
    rw [refineTemplate]
    simp
  refine ⟨h1, ?_⟩
  rw [h1]
  intro h
  have hm := congrArg DocumentTemplate.metadata h
  rw [refineTemplateStep] at hm
  simp [initializeTemplate, extractMetadata] at hm

/-- Witness for C5 (amended): with exactly one analysis and iterative
refinement requested, the fast path runs. -/
theorem C5_refineTemplate_paths_witness :
    ([halfConfidenceAnalysis] : List ChunkAnalysis).length = 1 ∧
      refineTemplate ⟨1, 7/10, true⟩ none [halfConfidenceAnalysis] 10 =
        refineTemplateStep initializeTemplate [halfConfidenceAnalysis] none :=
  ⟨rfl, C5_refineTemplate_paths.2.1 ⟨1, 7/10, true⟩ none [halfConfidenceAnalysis] 10 rfl⟩

end Templex
